import Mathlib

/-!
Verification development for the Xapian search backend
(`xapian_backend.py`).

The Python source is shallowly embedded: Python strings are `List Char`,
Python integers are `Int` (arbitrary precision, as in Python), Python
exceptions are `Option`/`Except` values, and the external Xapian engine
(query execution, expansion sets, sortable float serialisation) is either
a parameter of the embedding or modelled from the specification of its
interface (section 6 of the spec).
-/

/-! ### Definitions -/

/-- Python decimal digit character: code point `48 + d`. -/
def digitChar (d : Nat) : Char := Char.ofNat (48 + d)

/-- Fuel-based decimal digit expansion of a natural number, most
significant digit first (model of Python's unsigned decimal formatting). -/
def natDigitsAux : Nat → Nat → List Char
  | 0, _ => []
  | fuel + 1, n =>
    if n < 10 then [digitChar n]
    else natDigitsAux fuel (n / 10) ++ [digitChar (n % 10)]

/-- Decimal digit characters of a natural number (`str(n)` for `n >= 0`). -/
def natDigits (n : Nat) : List Char := natDigitsAux (n + 1) n

/-- Python `str` of an arbitrary-precision integer. -/
def intStr (v : Int) : List Char :=
  if v < 0 then '-' :: natDigits (-v).toNat else natDigits v.toNat

/-- Strict ordinary lexicographic (code-point) ordering on strings. -/
def lexLt : List Char → List Char → Bool
  | [], [] => false
  | [], _ :: _ => true
  | _ :: _, [] => false
  | a :: as, b :: bs =>
    if a.toNat < b.toNat then true
    else if b.toNat < a.toNat then false
    else lexLt as bs

/-- Non-strict ordinary lexicographic ordering on strings. -/
def lexLe (s t : List Char) : Bool := lexLt s t || s == t

/-- Pad a string on the left with zeros up to width `w`
(the padding part of Python's `'%0wd'`). -/
def padZeros (w : Nat) (s : List Char) : List Char :=
  List.replicate (w - s.length) '0' ++ s

/-- Fixed-width zero-padded decimal rendering of a natural number:
Python `'%0wd' % n` for `n >= 0` (wider numbers keep all their digits). -/
def fmt0 (w : Nat) (n : Nat) : List Char := padZeros w (natDigits n)

/-- The exact low-order `w` decimal digits of `n`, as characters
(helper for reasoning about `fmt0`; equal to it when `n < 10 ^ w`). -/
def decimalFix : Nat → Nat → List Char
  | 0, _ => []
  | w + 1, n => decimalFix w (n / 10) ++ [digitChar (n % 10)]

/-- Python date value (`datetime.date`). -/
structure PyDate where
  year : Nat
  month : Nat
  day : Nat
deriving DecidableEq

/-- Python datetime value (`datetime.datetime`); `micro` is the
microsecond component. -/
structure PyDateTime where
  year : Nat
  month : Nat
  day : Nat
  hour : Nat
  minute : Nat
  second : Nat
  micro : Nat
deriving DecidableEq

/-- Scalar Python values that reach `SearchBackend._marshal_value`.
Floats are absent: the source delegates them whole to the external
engine primitive `xapian.sortable_serialise` (spec section 6), which the
claims under verification never evaluate. -/
inductive PyScalar where
  | int (i : Int)
  | str (s : List Char)
  | bool (b : Bool)
  | date (d : PyDate)
  | datetime (t : PyDateTime)
deriving DecidableEq

/-- A filter value: a scalar, or a flat sequence of scalars (the spec's
FilterNode value domain, section 3: scalar or ordered-sequence-of-scalar). -/
inductive PyVal where
  | scalar (v : PyScalar)
  | list (l : List PyScalar)
deriving DecidableEq

/-- Embedding of `_marshal_value` on `bool` (lines 660-664):
single character `t` / `f`. -/
def marshalBool (b : Bool) : List Char := if b then ['t'] else ['f']

/-- Embedding of `_marshal_value` on `int`/`long` (lines 667-668):
Python `u'%012d' % value` (sign, then zero padding to total width 12). -/
def marshalInt (v : Int) : List Char :=
  if v < 0 then '-' :: padZeros 11 (natDigits (-v).toNat)
  else padZeros 12 (natDigits v.toNat)

/-- Embedding of `_marshal_value` on `datetime.date` (lines 658-659):
`u'%04d%02d%02d000000'`. -/
def marshalDate (d : PyDate) : List Char :=
  fmt0 4 d.year ++ fmt0 2 d.month ++ fmt0 2 d.day ++ ("000000".data)

/-- Embedding of `_marshal_value` on `datetime.datetime` (lines 647-657):
14-digit `YYYYMMDDHHMMSS`, with a 6-digit microsecond suffix exactly when
the microsecond component is nonzero. -/
def marshalDateTime (t : PyDateTime) : List Char :=
  if t.micro ≠ 0 then
    fmt0 4 t.year ++ fmt0 2 t.month ++ fmt0 2 t.day ++ fmt0 2 t.hour ++
      fmt0 2 t.minute ++ fmt0 2 t.second ++ fmt0 6 t.micro
  else
    fmt0 4 t.year ++ fmt0 2 t.month ++ fmt0 2 t.day ++ fmt0 2 t.hour ++
      fmt0 2 t.minute ++ fmt0 2 t.second

/-- Embedding of `SearchBackend._marshal_value` (lines 643-671) on the
scalar values of the model.  The `isinstance` dispatch order of the
source (datetime before date, bool before int) is preserved by the
disjointness of the constructors; text falls through to `force_unicode`,
the identity on strings. -/
def marshalScalar : PyScalar → List Char
  | .datetime t => marshalDateTime t
  | .date d => marshalDate d
  | .bool b => marshalBool b
  | .int i => marshalInt i
  | .str s => s

/-- Chronological (lexicographic field) order on Python dates, as used by
Python's comparison of `datetime.date` values. -/
def dateLt (a b : PyDate) : Prop :=
  a.year < b.year ∨ (a.year = b.year ∧
    (a.month < b.month ∨ (a.month = b.month ∧ a.day < b.day)))

instance (a b : PyDate) : Decidable (dateLt a b) := by
  unfold dateLt; infer_instance

/-- Chronological (lexicographic field) order on Python datetimes, as
used by Python's comparison of `datetime.datetime` values. -/
def dtLt (a b : PyDateTime) : Prop :=
  a.year < b.year ∨ (a.year = b.year ∧
    (a.month < b.month ∨ (a.month = b.month ∧
      (a.day < b.day ∨ (a.day = b.day ∧
        (a.hour < b.hour ∨ (a.hour = b.hour ∧
          (a.minute < b.minute ∨ (a.minute = b.minute ∧
            (a.second < b.second ∨ (a.second = b.second ∧
              a.micro < b.micro)))))))))))

instance (a b : PyDateTime) : Decidable (dtLt a b) := by
  unfold dtLt; infer_instance

/-- Validity of a Python date: the ranges `datetime.date` enforces
(day validity is only needed up to the field widths here). -/
def validDate (d : PyDate) : Prop :=
  1 ≤ d.year ∧ d.year ≤ 9999 ∧ 1 ≤ d.month ∧ d.month ≤ 12 ∧
    1 ≤ d.day ∧ d.day ≤ 31

instance (d : PyDate) : Decidable (validDate d) := by
  unfold validDate; infer_instance

/-- Validity of a Python datetime: the ranges `datetime.datetime`
enforces. -/
def validDT (t : PyDateTime) : Prop :=
  1 ≤ t.year ∧ t.year ≤ 9999 ∧ 1 ≤ t.month ∧ t.month ≤ 12 ∧
    1 ≤ t.day ∧ t.day ≤ 31 ∧ t.hour ≤ 23 ∧ t.minute ≤ 59 ∧
    t.second ≤ 59 ∧ t.micro ≤ 999999

instance (t : PyDateTime) : Decidable (validDT t) := by
  unfold validDT; infer_instance

/-- The date fields packed into one number, mirroring the digit layout of
`marshalDate` (proof helper). -/
def packDate (d : PyDate) : Nat := (d.year * 100 + d.month) * 100 + d.day

/-- The six time fields packed into one number, mirroring the digit
layout of the first 14 characters of `marshalDateTime` (proof helper). -/
def packDT (t : PyDateTime) : Nat :=
  ((((t.year * 100 + t.month) * 100 + t.day) * 100 + t.hour) * 100 +
    t.minute) * 100 + t.second

/-- Shorthand for the character list of a string literal. -/
def lc (s : String) : List Char := s.data

/-- Join a list of strings with a separator (Python `sep.join(xs)`). -/
def joinSep (sep : List Char) : List (List Char) → List Char
  | [] => []
  | [x] => x
  | x :: y :: xs => x ++ sep ++ joinSep sep (y :: xs)

/-- Python `str` of a date: ISO `YYYY-MM-DD`. -/
def dateStr (d : PyDate) : List Char :=
  fmt0 4 d.year ++ '-' :: fmt0 2 d.month ++ '-' :: fmt0 2 d.day

/-- Python `str` of a datetime: `YYYY-MM-DD HH:MM:SS`, with a
microsecond suffix exactly when the microsecond component is nonzero. -/
def dateTimeStr (t : PyDateTime) : List Char :=
  fmt0 4 t.year ++ '-' :: fmt0 2 t.month ++ '-' :: fmt0 2 t.day ++
    ' ' :: fmt0 2 t.hour ++ ':' :: fmt0 2 t.minute ++ ':' :: fmt0 2 t.second ++
    (if t.micro ≠ 0 then '.' :: fmt0 6 t.micro else [])

/-- Python `str` of a scalar value, as used by `'%s' % value`. -/
def pyStrScalar : PyScalar → List Char
  | .int i => intStr i
  | .str s => s
  | .bool b => if b then lc "True" else lc "False"
  | .date d => dateStr d
  | .datetime t => dateTimeStr t

/-- Python `repr` of a scalar value (string quoting and escaping is
modelled only up to plain single-quote wrapping, which is exact for
strings without quotes or escapes). -/
def pyReprScalar : PyScalar → List Char
  | .int i => intStr i
  | .str s => Char.ofNat 39 :: s ++ [Char.ofNat 39]
  | .bool b => if b then lc "True" else lc "False"
  | .date d =>
    lc "datetime.date(" ++ intStr d.year ++ lc ", " ++ intStr d.month ++
      lc ", " ++ intStr d.day ++ lc ")"
  | .datetime t =>
    lc "datetime.datetime(" ++ intStr t.year ++ lc ", " ++ intStr t.month ++
      lc ", " ++ intStr t.day ++ lc ", " ++ intStr t.hour ++ lc ", " ++
      intStr t.minute ++
      (if t.second ≠ 0 ∨ t.micro ≠ 0 then lc ", " ++ intStr t.second else []) ++
      (if t.micro ≠ 0 then lc ", " ++ intStr t.micro else []) ++ lc ")"

/-- Python `str` of a list of scalars (`'%s' % [..]`):
`repr`-rendered elements between square brackets. -/
def pyStrOfList (l : List PyScalar) : List Char :=
  '[' :: joinSep (lc ", ") (l.map pyReprScalar) ++ [']']

/-- Embedding of `_marshal_value` on the full filter-value domain:
scalars dispatch as in the source, and a list falls through to the
`force_unicode` text fallback (its `str` rendering). -/
def marshalValue : PyVal → List Char
  | .scalar sc => marshalScalar sc
  | .list l => pyStrOfList l

/-- Modelled from the spec: the FilterNode connector of section 3
(`none`, `and`, `or`), standing in for the external haystack
`QueryFilter.is_and` / `is_or` flags consumed by `build_query`. -/
inductive Connector where
  | none
  | and
  | or
deriving DecidableEq

/-- Modelled from the spec: a FilterNode (section 3).  `build_query`
reads exactly these components of the external haystack `QueryFilter`:
`field`, `filter_type`, `value`, and the `is_and`/`is_or`/`is_not`
predicates, the last mapped to `negated`. -/
structure QueryFilter where
  field : List Char
  filter_type : List Char
  value : PyVal
  connector : Connector
  negated : Bool

/-- The `is_and` connector test of a filter node. -/
def QueryFilter.is_and (f : QueryFilter) : Bool := f.connector == Connector.and

/-- The `is_or` connector test of a filter node. -/
def QueryFilter.is_or (f : QueryFilter) : Bool := f.connector == Connector.or

/-- The `is_not` negation test of a filter node. -/
def QueryFilter.is_not (f : QueryFilter) : Bool := f.negated

/-- Embedding of `build_query` lines 905-913: marshal a non-sequence
value, then quote it when it contains whitespace.  The result is either
a string (`Sum.inl`), or the original scalar sequence (`Sum.inr`) when
the value is a list that was not turned into a quoted string.  (Python's
`' ' in value` on a list is membership of the string `' '` among its
elements; quoting then renders the whole list as one string, over whose
characters a later `in`-expansion would iterate.) -/
def procValue : PyVal → Sum (List Char) (List PyScalar)
  | .scalar sc =>
    let m := marshalScalar sc
    .inl (if m.contains ' ' then '"' :: m ++ ['"'] else m)
  | .list l =>
    if l.contains (.str [' ']) then .inl ('"' :: pyStrOfList l ++ ['"'])
    else .inr l

/-- The string rendering of a processed value used by the non-`in`
emission patterns (`'%s' % value` renders a surviving list wholesale). -/
def procValueStr : Sum (List Char) (List PyScalar) → List Char
  | .inl s => s
  | .inr l => pyStrOfList l

/-- Embedding of the `filter_types` emission tables of `build_query`
(lines 922-938), selected by negation; `none` models the `KeyError` an
unknown operator key would raise. -/
def filterPattern (negated : Bool) (ftv field value : List Char) : Option (List Char) :=
  if negated then
    if ftv == lc "exact" then some (lc "NOT " ++ field ++ ':' :: value)
    else if ftv == lc "gte" then some (lc "NOT " ++ field ++ ':' :: value ++ lc "..*")
    else if ftv == lc "gt" then some (field ++ lc ":.." ++ value)
    else if ftv == lc "lte" then some (lc "NOT " ++ field ++ lc ":.." ++ value)
    else if ftv == lc "lt" then some (field ++ ':' :: value ++ lc "..*")
    else if ftv == lc "startswith" then some (lc "NOT " ++ field ++ ':' :: value ++ lc "*")
    else none
  else
    if ftv == lc "exact" then some (field ++ ':' :: value)
    else if ftv == lc "gte" then some (field ++ ':' :: value ++ lc "..*")
    else if ftv == lc "gt" then some (lc "NOT " ++ field ++ lc ":.." ++ value)
    else if ftv == lc "lte" then some (field ++ lc ":.." ++ value)
    else if ftv == lc "lt" then some (lc "NOT " ++ field ++ ':' :: value ++ lc "..*")
    else if ftv == lc "startswith" then some (field ++ ':' :: value ++ lc "*")
    else none

/-- Embedding of the `in_options` element rendering of `build_query`
(lines 943-951): each element of a surviving list is rendered with plain
`'%s:%s'` formatting (never marshalled); when the processed value
collapsed to one string, Python iterates over its characters. -/
def inOptions (field : List Char) : Sum (List Char) (List PyScalar) → List (List Char)
  | .inl s => s.map (fun c => field ++ [':', c])
  | .inr l => l.map (fun sc => field ++ ':' :: pyStrScalar sc)

/-- Embedding of the per-filter chunk emission of `build_query`
(lines 895-951): connector tokens, the content pseudo-field, the
negation `AND`, the operator pattern table, and the `in` expansion.
`none` models a raised exception (unknown operator key, or joining a
raw list into the query string). -/
def perFilterChunks (f : QueryFilter) : Option (List (List Char)) :=
  let conn :=
    (if f.is_and then [lc "AND"] else []) ++
    (if f.is_or then [lc "OR"] else []) ++
    (if f.is_not && f.field == lc "content" then [lc "NOT"] else [])
  let pv := procValue f.value
  if f.field == lc "content" then
    match pv with
    | .inl s => some (conn ++ [s])
    | .inr _ => none
  else
    let negChunk := if f.is_not then [lc "AND"] else []
    if f.filter_type == lc "in" then
      let opts := inOptions f.field pv
      if f.is_not then
        some (conn ++ negChunk ++ [lc "NOT " ++ joinSep (lc " NOT ") opts])
      else
        some (conn ++ negChunk ++ ['(' :: joinSep (lc " OR ") opts ++ [')']])
    else
      match filterPattern f.is_not f.filter_type f.field (procValueStr pv) with
      | some chunk => some (conn ++ negChunk ++ [chunk])
      | none => none

/-- The chunk-emission loop of `build_query` over the filter list, in
order; a raised exception in any filter aborts the whole call. -/
def collectChunks : List QueryFilter → Option (List (List Char))
  | [] => some []
  | f :: rest =>
    match perFilterChunks f, collectChunks rest with
    | some cs, some rest' => some (cs ++ rest')
    | _, _ => none

/-- Embedding of `SearchQuery.build_query` (lines 880-967): emit chunks
per filter, strip one leading `AND`/`OR`, join with single spaces, and
append the model-type restriction clause.  `models` holds the
`app_label.module_name` strings of the restricted models. -/
def buildQuery (query_filters : List QueryFilter) (models : List (List Char)) :
    Option (List Char) :=
  match (if query_filters.isEmpty then some (lc "*")
    else (collectChunks query_filters).map (fun chunks =>
      let chunks :=
        match chunks with
        | c :: rest => if c == lc "AND" || c == lc "OR" then rest else c :: rest
        | [] => []
      joinSep [' '] chunks)) with
  | none => none
  | some query =>
    if models.isEmpty then some query
    else some ('(' :: query ++ lc ") " ++
      joinSep [' '] (models.map (fun m => lc "django_ct:" ++ m)))

/-- A schema entry as built by `build_schema` (the `field_data` dict of
lines 480-485). -/
structure FieldDict where
  field_name : List Char
  type : List Char
  multi_valued : List Char
  column : Nat
deriving DecidableEq

/-- The haystack field-declaration classes distinguished by the
`isinstance` chain of `build_schema` (lines 487-496). -/
inductive FieldTag where
  | char
  | date
  | datetime
  | integer
  | float
  | boolean
  | multi
deriving DecidableEq

/-- A haystack field declaration as read by `build_schema`: the
`document` and `indexed` flags and the declaration class. -/
structure FieldClass where
  document : Bool
  indexed : Bool
  tag : FieldTag

/-- The `type` string assigned by the `isinstance` chain of
`build_schema` (lines 482, 487-494; a multi-valued field keeps the
default `text`). -/
def fieldTypeOf : FieldTag → List Char
  | .date => lc "date"
  | .datetime => lc "date"
  | .integer => lc "long"
  | .float => lc "float"
  | .boolean => lc "boolean"
  | _ => lc "text"

/-- The recursion of `build_schema` (lines 471-501) over the ordered
field declarations, carrying the content-field name (last `document`
declaration wins) and the next free column. -/
def buildSchemaAux : List (List Char × FieldClass) → List Char → Nat →
    List Char × List FieldDict
  | [], content, _ => (content, [])
  | (name, fc) :: rest, content, column =>
    let content2 := if fc.document then name else content
    if fc.indexed then
      let fd : FieldDict :=
        ⟨name, fieldTypeOf fc.tag,
          if fc.tag == FieldTag.multi then lc "true" else lc "false", column⟩
      let r := buildSchemaAux rest content2 (column + 1)
      (r.1, fd :: r.2)
    else
      buildSchemaAux rest content2 column

/-- Embedding of `SearchBackend.build_schema` (lines 461-501): returns
the content field name and the ordered schema, columns assigned from 0. -/
def buildSchema (fields : List (List Char × FieldClass)) :
    List Char × List FieldDict :=
  buildSchemaAux fields (lc "") 0

/-- Embedding of `SearchBackend._value_column` (lines 846-859): the
column of the first schema entry with the given name, else 0. -/
def valueColumn (schema : List FieldDict) (field : List Char) : Nat :=
  match schema with
  | [] => 0
  | fd :: rest => if fd.field_name == field then fd.column else valueColumn rest field

/-- One entry of `SearchBackend._sorter` (lines 798-804): strip a
leading `-` into the reverse flag and resolve the column. -/
def sorterEntry (schema : List FieldDict) : List Char → Nat × Bool
  | '-' :: rest => (valueColumn schema rest, true)
  | sf => (valueColumn schema sf, false)

/-- Embedding of `SearchBackend._sorter` (lines 786-806): the
`(column, reverse)` pairs fed to `xapian.MultiValueSorter.add`, in
order. -/
def sorter (schema : List FieldDict) (sort_by : List (List Char)) :
    List (Nat × Bool) :=
  sort_by.map (sorterEntry schema)

/-- Python 2 `sys.maxint` on the 64-bit platforms the backend targets. -/
def sysMaxInt : Int := 2 ^ 63 - 1

/-- A bound value during range processing: Python lets `begin`/`end`
hold a string, the integer sentinels, or the float infinities before
marshalling. -/
inductive RangeBound where
  | str (s : List Char)
  | int (i : Int)
  | fneg
  | fpos
deriving DecidableEq

/-- Modelled from the spec: the external float primitives of section 6
(the Python `float(...)` constructor and the Index Engine's monotonic
sortable serialisation `xapian.sortable_serialise`), abstracted over the
carrier `F`; `parse` returns `none` where Python raises `ValueError`. -/
structure FloatModel (F : Type) where
  parse : List Char → Option F
  fneg : F
  fpos : F
  serialise : F → List Char

/-- The numeric value of a decimal digit character, if any. -/
def digitVal (c : Char) : Option Nat :=
  if 48 ≤ c.toNat ∧ c.toNat ≤ 57 then some (c.toNat - 48) else none

/-- Accumulate decimal digits left to right; `none` on a non-digit. -/
def parseDigitsAux : List Char → Nat → Option Nat
  | [], acc => some acc
  | c :: cs, acc =>
    match digitVal c with
    | some d => parseDigitsAux cs (acc * 10 + d)
    | none => none

/-- Parse a nonempty all-digit string. -/
def parseDigits : List Char → Option Nat
  | [] => none
  | s => parseDigitsAux s 0

/-- Python `long(string)`: optional sign followed by digits, `none`
where Python raises `ValueError`. -/
def parseInt (s : List Char) : Option Int :=
  match s with
  | '-' :: rest => (parseDigits rest).map (fun n => -(n : Int))
  | '+' :: rest => (parseDigits rest).map (fun n => (n : Int))
  | _ => (parseDigits s).map (fun n => (n : Int))

/-- Index of the first occurrence of a character (Python `find`
success). -/
def findCharIdx (c : Char) : List Char → Option Nat
  | [] => none
  | x :: xs => if x == c then some 0 else (findCharIdx c xs).map (· + 1)

/-- The field/bound split of `XHValueRangeProcessor.__call__`
(lines 63-65): `begin.find(':')` then slicing, including Python's
behaviour at `find = -1` (name is all but the last character, bound is
the whole token). -/
def splitColon (s : List Char) : List Char × List Char :=
  match findCharIdx ':' s with
  | some i => (s.take i, s.drop (i + 1))
  | none => (s.dropLast, s)

/-- The first schema entry carrying the given field name (the lookup
loop of lines 66-67). -/
def findFieldDict (schema : List FieldDict) (fname : List Char) : Option FieldDict :=
  match schema with
  | [] => none
  | fd :: rest => if fd.field_name == fname then some fd else findFieldDict rest fname

/-- The sentinel substitution of `XHValueRangeProcessor.__call__`
(lines 68-85).  Note the source's `elif`: when the low bound is empty
only the low sentinel is substituted and the high bound is left as
given. -/
def vrpSubstitute (ftype : List Char) (bgn hi : List Char) :
    RangeBound × RangeBound :=
  if bgn.isEmpty then
    (if ftype == lc "text" then RangeBound.str (lc "a")
     else if ftype == lc "long" then RangeBound.int (-sysMaxInt - 1)
     else if ftype == lc "float" then RangeBound.fneg
     else if ftype == lc "date" || ftype == lc "datetime" then
       RangeBound.str (lc "00010101000000")
     else RangeBound.str bgn, RangeBound.str hi)
  else if hi == lc "*" then
    (RangeBound.str bgn,
     if ftype == lc "text" then RangeBound.str (List.replicate 100 'z')
     else if ftype == lc "long" then RangeBound.int sysMaxInt
     else if ftype == lc "float" then RangeBound.fpos
     else if ftype == lc "date" || ftype == lc "datetime" then
       RangeBound.str (lc "99990101000000")
     else RangeBound.str hi)
  else (RangeBound.str bgn, RangeBound.str hi)

/-- Python `long(...)` applied to a processing bound. -/
def rbToInt : RangeBound → Option Int
  | .str s => parseInt s
  | .int i => some i
  | .fneg => none
  | .fpos => none

/-- Python `float(...)` applied to a processing bound, under a float
model. -/
def rbToFloat {F : Type} (fm : FloatModel F) : RangeBound → Option F
  | .str s => fm.parse s
  | .int i => fm.parse (intStr i)
  | .fneg => some fm.fneg
  | .fpos => some fm.fpos

/-- Python `str(...)` of a processing bound (line 92). -/
def rbStr : RangeBound → List Char
  | .str s => s
  | .int i => intStr i
  | .fneg => lc "-inf"
  | .fpos => lc "inf"

/-- Embedding of `XHValueRangeProcessor.__call__` (lines 52-92):
split the begin token, look up the field, substitute sentinels, apply
type marshalling (`long` via `_marshal_value` on the parsed integer,
`float` via the engine serialisation), and return the column with the
two bound strings.  `.error` models a raised `ValueError`; `.ok none`
models the fall-through `None` when the field is not in the schema. -/
def xhvrpBody {F : Type} (fm : FloatModel F) (fd : FieldDict)
    (lo hi : List Char) : Except Unit (Option (Nat × List Char × List Char)) :=
  let be := vrpSubstitute fd.type lo hi
  if fd.type == lc "float" then
    match rbToFloat fm be.1, rbToFloat fm be.2 with
    | some fb, some fe =>
      .ok (some (fd.column, fm.serialise fb, fm.serialise fe))
    | _, _ => .error ()
  else if fd.type == lc "long" then
    match rbToInt be.1, rbToInt be.2 with
    | some ib, some ie => .ok (some (fd.column, marshalInt ib, marshalInt ie))
    | _, _ => .error ()
  else .ok (some (fd.column, rbStr be.1, rbStr be.2))

/-- Embedding of the full `XHValueRangeProcessor.__call__`: split the
begin token, look up the field (`.ok none` is the fall-through `None`
when the field is not in the schema), then process the bounds. -/
def xhvrpCall {F : Type} (fm : FloatModel F) (schema : List FieldDict)
    (bgn hi : List Char) : Except Unit (Option (Nat × List Char × List Char)) :=
  let p := splitColon bgn
  match findFieldDict schema p.1 with
  | none => .ok none
  | some fd => xhvrpBody fm fd p.2 hi

/-- Modelled from the spec: a stored document at the Index Engine
interface (StoredDocument of section 3): the engine document id, the
set of indexed terms, and the opaque serialized payload. -/
structure StoredDoc where
  docid : Nat
  terms : List (List Char)
  payload : List Char
deriving DecidableEq

/-- Does `s` start with `pre` (Python `s.startswith(pre)`)? -/
def hasStart : List Char → List Char → Bool
  | [], _ => true
  | _ :: _, [] => false
  | a :: ps, b :: ss => a == b && hasStart ps ss

/-- The type-marker term head `DOCUMENT_CT_TERM_PREFIX` (line 44):
`X` + `CONTENTTYPE`. -/
def documentCtTermMark : List Char := lc "XCONTENTTYPE"

/-- Embedding of `XHExpandDecider.__call__` (lines 95-105): reject
expansion terms beginning with the type-marker head. -/
def xhExpandDecider (term : List Char) : Bool :=
  if hasStart documentCtTermMark term then false else true

/-- Modelled from the spec: the boolean query trees `more_like_this`
hands to the Index Engine (section 6): plain term queries, `OP_OR` over
expansion terms, `OP_AND_NOT` against an identifier term, `OP_AND` with
a separately parsed narrowing query (abstracted as a document
predicate). -/
inductive EQuery where
  | term (t : List Char)
  | orList (ts : List (List Char))
  | andNot (q : EQuery) (t : List Char)
  | and (q : EQuery) (p : StoredDoc → Bool)

/-- Modelled from the spec: match semantics of the engine's boolean
query operators (section 6) over a stored document's term set. -/
def matchesQ : EQuery → StoredDoc → Bool
  | .term t, d => d.terms.contains t
  | .orList ts, d => ts.any (fun t => d.terms.contains t)
  | .andNot q t, d => matchesQ q d && !(d.terms.contains t)
  | .and q p, d => matchesQ q d && p d

/-- The expansion terms `more_like_this` uses (line 426): the engine's
candidate ESet terms filtered by the injectable `XHExpandDecider`
(engine contract, spec section 6). -/
def mltExpansionTerms (candidates : List (List Char)) : List (List Char) :=
  candidates.filter xhExpandDecider

/-- The derived query of `more_like_this` (lines 425-437): `OP_OR` over
the surviving expansion terms, `OP_AND_NOT` against the seed's
identifier term, and optionally `OP_AND` with the parsed additional
query. -/
def mltQuery (candidates : List (List Char)) (idTerm : List Char)
    (additional : Option (StoredDoc → Bool)) : EQuery :=
  let q1 := EQuery.orList (mltExpansionTerms candidates)
  let q2 := EQuery.andNot q1 idTerm
  match additional with
  | some p => EQuery.and q2 p
  | none => q2

/-- The documents `more_like_this` returns (lines 438-448): the matches
of the derived query, windowed by `get_mset(start_offset, end_offset)`.
The database contents and the candidate expansion terms are parameters
(both live behind the engine interface). -/
def mltMatches (db : List StoredDoc) (candidates : List (List Char))
    (idTerm : List Char) (additional : Option (StoredDoc → Bool))
    (start endo : Nat) : List StoredDoc :=
  (((db.filter (matchesQ (mltQuery candidates idTerm additional))).drop start).take endo)

/-- The mset size cap `DEFAULT_MAX_RESULTS` (line 40). -/
def defaultMaxResults : Nat := 100000

/-- Embedding of `SearchBackend.clear` with no models (lines 255-260):
run the universal query, collect at most `DEFAULT_MAX_RESULTS` match
docids (the engine returns them in the stored docid-ascending enquire
order, modelled as list order), then delete each docid. -/
def clearAll (db : List StoredDoc) : List StoredDoc :=
  ((db.take defaultMaxResults).map (fun d => d.docid)).foldl
    (fun st i => st.filter (fun d => d.docid != i)) db

/-- Embedding of `SearchBackend.clear` with models (lines 261-266):
`delete_document` by each model's type-marker term removes every
document indexed under that term (engine contract, spec section 3). -/
def clearModels (db : List StoredDoc) (markers : List (List Char)) : List StoredDoc :=
  markers.foldl (fun st mk => st.filter (fun d => !(d.terms.contains mk))) db

/-- Embedding of `SearchBackend.document_count` (lines 378-386). -/
def documentCount (db : List StoredDoc) : Nat := db.length

/-- Gregorian leap year rule, as implemented by Python `datetime`. -/
def isLeapYear (y : Nat) : Bool :=
  (y % 4 == 0 && y % 100 != 0) || y % 400 == 0

/-- Days in a month of a given year (Python `calendar`/`datetime`). -/
def daysInMonth (y m : Nat) : Nat :=
  if m == 2 then (if isLeapYear y then 29 else 28)
  else if m == 4 || m == 6 || m == 9 || m == 11 then 30
  else 31

/-- Python `datetime.isoformat()`: `YYYY-MM-DDTHH:MM:SS`, plus a
6-digit microsecond suffix exactly when the microsecond is nonzero. -/
def isoFormat (t : PyDateTime) : List Char :=
  fmt0 4 t.year ++ '-' :: fmt0 2 t.month ++ '-' :: fmt0 2 t.day ++
    'T' :: fmt0 2 t.hour ++ ':' :: fmt0 2 t.minute ++ ':' :: fmt0 2 t.second ++
    (if t.micro ≠ 0 then '.' :: fmt0 6 t.micro else [])

/-- Read exactly `w` decimal digits into an accumulator, returning the
value and the remaining input. -/
def readFixedNat : Nat → List Char → Nat → Option (Nat × List Char)
  | 0, s, acc => some (acc, s)
  | _ + 1, [], _ => none
  | n + 1, c :: cs, acc =>
    match digitVal c with
    | some d => readFixedNat n cs (acc * 10 + d)
    | none => none

/-- Consume one expected literal character. -/
def expectChar (c : Char) : List Char → Option (List Char)
  | [] => none
  | x :: xs => if x == c then some xs else none

/-- Embedding of `datetime.datetime.strptime(s, '%Y-%m-%dT%H:%M:%S')`
(line 613) on its fixed format: positional digit fields with literal
separators, rejecting trailing input (so a microsecond suffix raises)
and applying `datetime`'s field validation. -/
def strptime19 (s : List Char) : Option PyDateTime :=
  match readFixedNat 4 s 0 with
  | none => none
  | some (y, s1) =>
    match expectChar '-' s1 with
    | none => none
    | some s2 =>
      match readFixedNat 2 s2 0 with
      | none => none
      | some (mo, s3) =>
        match expectChar '-' s3 with
        | none => none
        | some s4 =>
          match readFixedNat 2 s4 0 with
          | none => none
          | some (d, s5) =>
            match expectChar 'T' s5 with
            | none => none
            | some s6 =>
              match readFixedNat 2 s6 0 with
              | none => none
              | some (h, s7) =>
                match expectChar ':' s7 with
                | none => none
                | some s8 =>
                  match readFixedNat 2 s8 0 with
                  | none => none
                  | some (mi, s9) =>
                    match expectChar ':' s9 with
                    | none => none
                    | some s10 =>
                      match readFixedNat 2 s10 0 with
                      | none => none
                      | some (sec, s11) =>
                        if s11 = [] ∧ validDT ⟨y, mo, d, h, mi, sec, 0⟩ ∧
                            d ≤ daysInMonth y mo then
                          some ⟨y, mo, d, h, mi, sec, 0⟩
                        else none

/-- Calendar day addition with month/year carry (the date part of
Python `timedelta(days=n)` arithmetic); the first argument is fuel,
`n + 1` always suffices. -/
def addDaysAux : Nat → Nat → Nat × Nat × Nat → Nat × Nat × Nat
  | 0, _, ymd => ymd
  | fuel + 1, n, (y, m, d) =>
    if n = 0 then (y, m, d)
    else if d + n ≤ daysInMonth y m then (y, m, d + n)
    else
      addDaysAux fuel (n - (daysInMonth y m - d + 1))
        (if m == 12 then (y + 1, 1, 1) else (y, m + 1, 1))

/-- Add `n` calendar days to a date. -/
def addDays (n y m d : Nat) : Nat × Nat × Nat := addDaysAux (n + 1) n (y, m, d)

/-- Python `datetime + timedelta(seconds=n)`: seconds added to the time
of day, with day carry into the calendar; microseconds unchanged. -/
def addSeconds (n : Nat) (t : PyDateTime) : PyDateTime :=
  let tod := t.hour * 3600 + t.minute * 60 + t.second + n
  let ymd := addDays (tod / 86400) t.year t.month t.day
  ⟨ymd.1, ymd.2.1, ymd.2.2, tod % 86400 / 3600, tod % 86400 % 3600 / 60,
    tod % 86400 % 60, t.micro⟩

/-- Embedding of the gap step of `_do_date_facets` (lines 579-599):
`replace`-based year/month stepping (note the December special case:
month is reset to 1 and `gap_amount` is added to the year) and
`timedelta`-based day/hour/minute/second stepping.  `none` models the
`ValueError`/`OverflowError` Python raises when `replace` produces an
invalid date or the year leaves `datetime`'s range; an unrecognised
`gap_by` leaves the date unchanged, as the loop body does. -/
def stepBucket (gt : List Char) (gap : Nat) (t : PyDateTime) : Option PyDateTime :=
  if gt == lc "year" then
    if t.year + gap ≤ 9999 ∧ t.day ≤ daysInMonth (t.year + gap) t.month then
      some { t with year := t.year + gap }
    else none
  else if gt == lc "month" then
    if t.month == 12 then
      if t.year + gap ≤ 9999 ∧ t.day ≤ daysInMonth (t.year + gap) 1 then
        some ⟨t.year + gap, 1, t.day, t.hour, t.minute, t.second, t.micro⟩
      else none
    else
      if t.month + gap ≤ 12 ∧ t.day ≤ daysInMonth t.year (t.month + gap) then
        some { t with month := t.month + gap }
      else none
  else if gt == lc "day" then
    if (addDays gap t.year t.month t.day).1 ≤ 9999 then
      some ⟨(addDays gap t.year t.month t.day).1,
        (addDays gap t.year t.month t.day).2.1,
        (addDays gap t.year t.month t.day).2.2,
        t.hour, t.minute, t.second, t.micro⟩
    else none
  else if gt == lc "hour" then
    if (addSeconds (gap * 3600) t).year ≤ 9999 then some (addSeconds (gap * 3600) t)
    else none
  else if gt == lc "minute" then
    if (addSeconds (gap * 60) t).year ≤ 9999 then some (addSeconds (gap * 60) t)
    else none
  else if gt == lc "second" then
    if (addSeconds gap t).year ≤ 9999 then some (addSeconds gap t) else none
  else some t

/-- Embedding of the bucket-generation loop of `_do_date_facets`
(lines 575-599): while the running date is before `end_date`, append
`(isoformat, 0)` and step.  The fuel argument bounds the number of
iterations; exhausting it models nontermination (a step that never
reaches `end_date`), and a failing step propagates the exception. -/
def genBucketsAux : Nat → List Char → Nat → PyDateTime → PyDateTime →
    Option (List (List Char × Nat))
  | 0, _, _, _, _ => none
  | fuel + 1, gt, gap, cur, endd =>
    if dtLt cur endd then
      match stepBucket gt gap cur with
      | some next =>
        match genBucketsAux fuel gt gap next endd with
        | some rest => some ((isoFormat cur, 0) :: rest)
        | none => none
      | none => none
    else some []

/-- Stable descending insertion by string key: the step of Python
`sorted(facet_list, key=lambda n: n[0], reverse=True)` (line 601). -/
def insertDesc (x : List Char × Nat) : List (List Char × Nat) → List (List Char × Nat)
  | [] => [x]
  | y :: ys => if lexLt y.1 x.1 then x :: y :: ys else y :: insertDesc x ys

/-- Python `sorted(..., key=lambda n: n[0], reverse=True)`: a stable
descending sort by the first component. -/
def pySortDescByKey (l : List (List Char × Nat)) : List (List Char × Nat) :=
  l.foldl (fun acc x => insertDesc x acc) []

/-- A result's date value as read by `getattr` in `_do_date_facets`:
either a plain date or a datetime. -/
inductive FacetDateVal where
  | date (d : PyDate)
  | datetime (t : PyDateTime)
deriving DecidableEq

/-- The midnight coercion of lines 606-611: a plain date becomes a
datetime at `00:00:00`. -/
def coerceToDT : FacetDateVal → PyDateTime
  | .datetime t => t
  | .date d => ⟨d.year, d.month, d.day, 0, 0, 0, 0⟩

/-- Embedding of the per-result scan of lines 612-615: walk the
descending bucket list, increment the first bucket whose (re-parsed)
start is strictly before the result's date, then stop.  A failing
`strptime` raises, modelled as `none`. -/
def bumpFirst (rd : PyDateTime) : List (List Char × Nat) →
    Option (List (List Char × Nat))
  | [] => some []
  | (s, c) :: rest =>
    match strptime19 s with
    | none => none
    | some bt =>
      if dtLt bt rd then some ((s, c + 1) :: rest)
      else
        match bumpFirst rd rest with
        | some rest2 => some ((s, c) :: rest2)
        | none => none

/-- Embedding of the result loop of lines 603-615: falsy (`none`) dates
are skipped, others are coerced and tallied. -/
def countResults : List (Option FacetDateVal) → List (List Char × Nat) →
    Option (List (List Char × Nat))
  | [], fl => some fl
  | none :: rs, fl => countResults rs fl
  | some rv :: rs, fl =>
    match bumpFirst (coerceToDT rv) fl with
    | some fl2 => countResults rs fl2
    | none => none

/-- Embedding of one field's processing in `_do_date_facets`
(lines 542-619): generate buckets, sort them descending by ISO string,
then tally the results. -/
def doDateFacetsSingle (fuel : Nat) (gt : List Char) (gap : Nat)
    (start endd : PyDateTime) (results : List (Option FacetDateVal)) :
    Option (List (List Char × Nat)) :=
  match genBucketsAux fuel gt gap start endd with
  | none => none
  | some fl => countResults results (pySortDescByKey fl)

/-- Proper month addition: `gap` months forward with year carry. -/
def specMonthAdd (gap y m : Nat) : Nat × Nat :=
  ((m - 1 + gap) / 12 + y, (m - 1 + gap) % 12 + 1)

/-- Modelled from the spec (the claim's wording, for the refinement
comparison): stepping by `gap_amount` units of `gap_by`, with proper
month arithmetic; validity guards mirror Python `datetime`'s range. -/
def specStep (gt : List Char) (gap : Nat) (t : PyDateTime) : Option PyDateTime :=
  if gt == lc "year" then
    if t.year + gap ≤ 9999 ∧ t.day ≤ daysInMonth (t.year + gap) t.month then
      some { t with year := t.year + gap }
    else none
  else if gt == lc "month" then
    if (specMonthAdd gap t.year t.month).1 ≤ 9999 ∧
        t.day ≤ daysInMonth (specMonthAdd gap t.year t.month).1
          (specMonthAdd gap t.year t.month).2 then
      some ⟨(specMonthAdd gap t.year t.month).1, (specMonthAdd gap t.year t.month).2,
        t.day, t.hour, t.minute, t.second, t.micro⟩
    else none
  else if gt == lc "day" then
    if (addDays gap t.year t.month t.day).1 ≤ 9999 then
      some ⟨(addDays gap t.year t.month t.day).1,
        (addDays gap t.year t.month t.day).2.1,
        (addDays gap t.year t.month t.day).2.2,
        t.hour, t.minute, t.second, t.micro⟩
    else none
  else if gt == lc "hour" then
    if (addSeconds (gap * 3600) t).year ≤ 9999 then some (addSeconds (gap * 3600) t)
    else none
  else if gt == lc "minute" then
    if (addSeconds (gap * 60) t).year ≤ 9999 then some (addSeconds (gap * 60) t)
    else none
  else if gt == lc "second" then
    if (addSeconds gap t).year ≤ 9999 then some (addSeconds gap t) else none
  else none

/-- Modelled from the spec: the claim's ascending bucket-start sequence
from `start_date`, strictly below `end_date`. -/
def specGenAux : Nat → List Char → Nat → PyDateTime → PyDateTime →
    Option (List PyDateTime)
  | 0, _, _, _, _ => none
  | fuel + 1, gt, gap, cur, endd =>
    if dtLt cur endd then
      match specStep gt gap cur with
      | some next =>
        match specGenAux fuel gt gap next endd with
        | some rest => some (cur :: rest)
        | none => none
      | none => none
    else some []

/-- Modelled from the spec: increment the count of the first bucket (in
the given descending order) whose start is strictly less than the
result's date; a result at or before every bucket start increments
nothing. -/
def specBump (rd : PyDateTime) : List (PyDateTime × Nat) → List (PyDateTime × Nat)
  | [] => []
  | (bt, c) :: rest =>
    if dtLt bt rd then (bt, c + 1) :: rest else (bt, c) :: specBump rd rest

/-- Modelled from the spec: tally every result with a date value. -/
def specCount (results : List (Option FacetDateVal))
    (fl : List (PyDateTime × Nat)) : List (PyDateTime × Nat) :=
  results.foldl (fun fl r =>
    match r with
    | none => fl
    | some rv => specBump (coerceToDT rv) fl) fl

/-- Modelled from the spec: the claim's date-facet pipeline — the
ascending bucket sequence, reversed to descending order, tallied by
first-match, and rendered as `(iso8601, count)` pairs. -/
def specDateFacets (fuel : Nat) (gt : List Char) (gap : Nat)
    (start endd : PyDateTime) (results : List (Option FacetDateVal)) :
    Option (List (List Char × Nat)) :=
  match specGenAux fuel gt gap start endd with
  | none => none
  | some bl =>
    some ((specCount results ((bl.reverse).map (fun t => (t, 0)))).map
      (fun p => (isoFormat p.1, p.2)))

/-- Modelled from the spec (section 6, the engine interface): the
engine-side context `search` (lines 268-367) runs against.  `mset`
stands for the query-parse / enquire / match-iteration pipeline that
produces the processed result list (lines 326-355, including
highlighting and sorting), `hitsEst` for
`matches.get_matches_estimated()` (line 364), `spellFor` for the
spelling suggestion `_query` returns (line 328), and `fieldFacetsFn`
and `dateFacetsFn` stand for the separately embedded helper methods
`_do_field_facets` and `_do_date_facets` (lines 357-358). -/
structure SearchCtx (ρ φ δ : Type) where
  mset : List Char → List ρ
  hitsEst : List Char → Nat
  spellFor : List Char → Option (List Char)
  fieldFacetsFn : List ρ → List (List Char) → φ
  dateFacetsFn : List ρ → List (List Char) → δ

/-- The dictionary `search` returns, with bookkeeping: `facets` and
`spelling` are `none` exactly when the corresponding key is absent
from the returned dict; inside `facets`, a `none` component models a
sub-dict left at its initial `\x7b\x7d` (lines 337-341); `opened` records
whether `self._database()` ran (line 326); `subSearches` lists the
sub-queries `_do_query_facets` executed via `self.search` (line 639);
`warnings` collects the warnings emitted. -/
structure SearchRet (ρ φ δ : Type) where
  results : List ρ
  hits : Nat
  facets : Option (Option φ × Option δ ×
    Option (List (List Char × List Char × Nat)))
  spelling : Option (Option (List Char))
  warnings : List (List Char)
  opened : Bool
  subSearches : List (List Char)

/-- The warning message of line 322. -/
def queryFacetWarning : List Char := lc "Query faceting has not been implemented yet."

/-- `self.search(query)['hits']` as `_do_query_facets` uses it
(line 639): the inner call passes only the query string, so its `hits`
is 0 for an empty query (lines 316-320) and the engine's estimate for
the parsed query otherwise (line 364). -/
def innerSearchHits (hitsEst : List Char → Nat) (q : List Char) : Nat :=
  if q = [] then 0 else hitsEst q

/-- Embedding of `_do_query_facets` (lines 621-641): one
`(field, (query, hits))` entry per requested query facet, the hits
obtained by executing the sub-query as a search. -/
def doQueryFacets (hitsEst : List Char → Nat)
    (qf : List (List Char × List Char)) : List (List Char × List Char × Nat) :=
  qf.map (fun p => (p.1, p.2, innerSearchHits hitsEst p.2))

/-- Embedding of `search` (lines 268-367): the empty-query
short-circuit (lines 316-320), the query-facet warning (lines 321-322),
opening the database (line 326), and the three truthiness-guarded facet
computations (lines 356-361) feeding the returned dict (lines 362-367).
Python truthiness: a facet argument is skipped when it is `None` or an
empty dict, while the warning fires for any non-`None` value. -/
def searchModel {ρ φ δ : Type} (ctx : SearchCtx ρ φ δ) (query_string : List Char)
    (facets : Option (List (List Char))) (date_facets : Option (List (List Char)))
    (query_facets : Option (List (List Char × List Char))) : SearchRet ρ φ δ :=
  if query_string = [] then ⟨[], 0, none, none, [], false, []⟩
  else
    ⟨ctx.mset query_string, ctx.hitsEst query_string,
      some (
        (match facets with
          | some fs =>
            if fs = [] then none
            else some (ctx.fieldFacetsFn (ctx.mset query_string) fs)
          | none => none),
        (match date_facets with
          | some ds =>
            if ds = [] then none
            else some (ctx.dateFacetsFn (ctx.mset query_string) ds)
          | none => none),
        (match query_facets with
          | some qf => if qf = [] then none else some (doQueryFacets ctx.hitsEst qf)
          | none => none)),
      some (ctx.spellFor query_string),
      (match query_facets with
        | some _ => [queryFacetWarning]
        | none => []),
      true,
      (match query_facets with
        | some qf => if qf = [] then [] else qf.map (fun p => p.2)
        | none => [])⟩

/-- The queries component of the facets dict, when the key is present
(proof helper). -/
def queriesFacetOf {ρ φ δ : Type} (r : SearchRet ρ φ δ) :
    Option (List (List Char × List Char × Nat)) :=
  match r.facets with
  | none => none
  | some f => f.2.2

/-! ### Theorems -/

theorem natDigitsAux_fuel (n : Nat) : ∀ fuel₁ fuel₂ : Nat,
    n < fuel₁ → n < fuel₂ → natDigitsAux fuel₁ n = natDigitsAux fuel₂ n := by
  induction n using Nat.strong_induction_on with
  | _ n ih =>
    intro fuel₁ fuel₂ h₁ h₂
    match fuel₁, fuel₂ with
    | f₁ + 1, f₂ + 1 =>
      simp only [natDigitsAux]
      by_cases hlt : n < 10
      · simp [hlt]
      · simp only [if_neg hlt]
        have hn0 : 0 < n := by omega
        have hdiv : n / 10 < n := Nat.div_lt_self hn0 (by omega)
        rw [ih (n / 10) hdiv f₁ f₂ (by omega) (by omega)]

theorem natDigitsAux_succ (fuel n : Nat) :
    natDigitsAux (fuel + 1) n =
      if n < 10 then [digitChar n]
      else natDigitsAux fuel (n / 10) ++ [digitChar (n % 10)] := rfl

theorem natDigits_eq (n : Nat) :
    natDigits n =
      if n < 10 then [digitChar n]
      else natDigits (n / 10) ++ [digitChar (n % 10)] := by
  by_cases hlt : n < 10
  · simp only [natDigits, natDigitsAux_succ, if_pos hlt]
  · have hdiv : n / 10 < n := Nat.div_lt_self (by omega) (by omega)
    simp only [natDigits, natDigitsAux_succ, if_neg hlt]
    rw [natDigitsAux_fuel (n / 10) n (n / 10 + 1) hdiv (by omega), natDigitsAux_succ]

theorem digitChar_toNat {d : Nat} (h : d < 10) : (digitChar d).toNat = 48 + d := by
  interval_cases d <;> decide

theorem decimalFix_length (w : Nat) : ∀ n, (decimalFix w n).length = w := by
  induction w with
  | zero => intro n; rfl
  | succ w ih =>
    intro n
    simp [decimalFix, ih (n / 10)]

theorem decimalFix_zero (w : Nat) : decimalFix w 0 = List.replicate w '0' := by
  induction w with
  | zero => rfl
  | succ w ih =>
    simp only [decimalFix, Nat.zero_div, Nat.zero_mod, ih]
    rw [List.replicate_succ']
    rfl

theorem lexLt_append_right {xs ys : List Char} (hlen : xs.length = ys.length)
    (h : lexLt xs ys = true) : ∀ as bs, lexLt (xs ++ as) (ys ++ bs) = true := by
  induction xs generalizing ys with
  | nil =>
    cases ys with
    | nil => simp [lexLt] at h
    | cons y ys => simp at hlen
  | cons x xs ih =>
    cases ys with
    | nil => simp at hlen
    | cons y ys =>
      intro as bs
      simp only [List.cons_append, lexLt] at h ⊢
      by_cases h1 : x.toNat < y.toNat
      · simp [h1]
      · simp only [if_neg h1] at h ⊢
        by_cases h2 : y.toNat < x.toNat
        · simp [h2] at h
        · simp only [if_neg h2] at h ⊢
          exact ih (by simpa using hlen) h as bs

theorem lexLt_append_left (xs : List Char) {as bs : List Char}
    (h : lexLt as bs = true) : lexLt (xs ++ as) (xs ++ bs) = true := by
  induction xs with
  | nil => simpa using h
  | cons x xs ih =>
    simp only [List.cons_append, lexLt]
    rw [if_neg (Nat.lt_irrefl _), if_neg (Nat.lt_irrefl _)]
    exact ih

theorem lexLt_self_append (xs : List Char) (b : Char) (bs : List Char) :
    lexLt xs (xs ++ b :: bs) = true := by
  induction xs with
  | nil => simp [lexLt]
  | cons x xs ih =>
    simp only [List.cons_append, lexLt]
    rw [if_neg (Nat.lt_irrefl _), if_neg (Nat.lt_irrefl _)]
    exact ih

theorem decimalFix_lt (w : Nat) : ∀ n m, n < m → m < 10 ^ w →
    lexLt (decimalFix w n) (decimalFix w m) = true := by
  induction w with
  | zero =>
    intro n m hnm hm
    simp at hm
    omega
  | succ w ih =>
    intro n m hnm hm
    simp only [decimalFix]
    have hdivle : n / 10 ≤ m / 10 := Nat.div_le_div_right (Nat.le_of_lt hnm)
    rcases Nat.lt_or_ge (n / 10) (m / 10) with hdlt | hdge
    · have hmdiv : m / 10 < 10 ^ w := by
        rw [Nat.div_lt_iff_lt_mul (by omega)]
        calc m < 10 ^ (w + 1) := hm
        _ = 10 ^ w * 10 := by ring
      exact lexLt_append_right
        (by rw [decimalFix_length, decimalFix_length])
        (ih (n / 10) (m / 10) hdlt hmdiv) _ _
    · have hdeq : n / 10 = m / 10 := Nat.le_antisymm hdivle hdge
      rw [hdeq]
      apply lexLt_append_left
      have hmod : n % 10 < m % 10 := by
        have h1 := Nat.div_add_mod n 10
        have h2 := Nat.div_add_mod m 10
        omega
      have hm10 : m % 10 < 10 := Nat.mod_lt _ (by omega)
      simp only [lexLt]
      rw [digitChar_toNat (by omega), digitChar_toNat hm10]
      simp [hmod]

theorem padZeros_eq_decimalFix (w : Nat) : ∀ n, n < 10 ^ (w + 1) →
    padZeros (w + 1) (natDigits n) = decimalFix (w + 1) n := by
  induction w with
  | zero =>
    intro n hn
    have hn10 : n < 10 := by simpa using hn
    rw [natDigits_eq, if_pos hn10]
    simp [padZeros, decimalFix, decimalFix_zero, Nat.mod_eq_of_lt hn10]
  | succ w ih =>
    intro n hn
    rw [natDigits_eq]
    by_cases hlt : n < 10
    · rw [if_pos hlt]
      have hz : n / 10 = 0 := Nat.div_eq_of_lt hlt
      have h0 : digitChar 0 = '0' := by decide
      show padZeros (w + 1 + 1) [digitChar n] = decimalFix (w + 1) (n / 10) ++ [digitChar (n % 10)]
      rw [hz, decimalFix_zero, Nat.mod_eq_of_lt hlt]
      show List.replicate (w + 1 + 1 - 1) '0' ++ [digitChar n]
        = List.replicate (w + 1) '0' ++ [digitChar n]
      rfl
    · rw [if_neg hlt]
      have hdiv : n / 10 < 10 ^ (w + 1) := by
        rw [Nat.div_lt_iff_lt_mul (by omega)]
        calc n < 10 ^ (w + 2) := hn
        _ = 10 ^ (w + 1) * 10 := by ring
      have hrec := ih (n / 10) hdiv
      have hsplit : padZeros (w + 1 + 1) (natDigits (n / 10) ++ [digitChar (n % 10)])
          = padZeros (w + 1) (natDigits (n / 10)) ++ [digitChar (n % 10)] := by
        simp only [padZeros, List.length_append, List.length_cons, List.length_nil]
        rw [List.append_assoc]
        congr 2
        omega
      rw [hsplit, hrec]
      rfl

theorem decimalFix_append (w₁ w₂ : Nat) : ∀ a b, b < 10 ^ w₂ →
    decimalFix w₁ a ++ decimalFix w₂ b = decimalFix (w₁ + w₂) (a * 10 ^ w₂ + b) := by
  induction w₂ with
  | zero =>
    intro a b hb
    simp at hb
    simp [decimalFix, hb]
  | succ w ih =>
    intro a b hb
    have hdiv : b / 10 < 10 ^ w := by
      rw [Nat.div_lt_iff_lt_mul (by omega)]
      calc b < 10 ^ (w + 1) := hb
      _ = 10 ^ w * 10 := by ring
    have e1 : (a * 10 ^ (w + 1) + b) / 10 = a * 10 ^ w + b / 10 := by
      have h : a * 10 ^ (w + 1) + b = 10 * (a * 10 ^ w) + b := by ring
      rw [h, Nat.mul_add_div (by omega)]
    have e2 : (a * 10 ^ (w + 1) + b) % 10 = b % 10 := by
      have h : a * 10 ^ (w + 1) + b = 10 * (a * 10 ^ w) + b := by ring
      rw [h, Nat.mul_add_mod]
    have hw : w₁ + (w + 1) = (w₁ + w) + 1 := by omega
    rw [hw]
    simp only [decimalFix, e1, e2]
    rw [← List.append_assoc, ih a (b / 10) hdiv]

theorem lexLe_of_lexLt {s t : List Char} (h : lexLt s t = true) : lexLe s t = true := by
  unfold lexLe
  rw [h]
  rfl

theorem fmt0_eq_decimalFix (w n : Nat) (h : n < 10 ^ (w + 1)) :
    fmt0 (w + 1) n = decimalFix (w + 1) n :=
  padZeros_eq_decimalFix w n h

theorem marshalInt_repr (v : Int) (h0 : 0 ≤ v) (h : v < 10 ^ 12) :
    marshalInt v = decimalFix 12 v.toNat := by
  have hpow : (10 : Int) ^ 12 = 1000000000000 := by norm_num
  have hv : v.toNat < 10 ^ 12 := by
    have : (10 : Nat) ^ 12 = 1000000000000 := by norm_num
    omega
  unfold marshalInt
  rw [if_neg (by omega)]
  exact padZeros_eq_decimalFix 11 v.toNat hv

theorem marshalDate_repr (d : PyDate) (h : validDate d) :
    marshalDate d = decimalFix 14 (packDate d * 10 ^ 6) := by
  obtain ⟨h1, h2, h3, h4, h5, h6⟩ := h
  have hy : d.year < 10 ^ 4 := by norm_num; omega
  have hm : d.month < 10 ^ 2 := by norm_num; omega
  have hd : d.day < 10 ^ 2 := by norm_num; omega
  have hz : ("000000".data) = decimalFix 6 0 := by decide
  unfold marshalDate
  rw [fmt0_eq_decimalFix 3 _ hy, fmt0_eq_decimalFix 1 _ hm, fmt0_eq_decimalFix 1 _ hd, hz]
  rw [decimalFix_append 4 2 _ _ hm, decimalFix_append 6 2 _ _ hd,
    decimalFix_append 8 6 _ _ (by norm_num)]
  norm_num [packDate]

theorem marshalDateTime_repr_zero (t : PyDateTime) (h : validDT t) (hu : t.micro = 0) :
    marshalDateTime t = decimalFix 14 (packDT t) := by
  obtain ⟨h1, h2, h3, h4, h5, h6, h7, h8, h9, h10⟩ := h
  have hy : t.year < 10 ^ 4 := by norm_num; omega
  have hm : t.month < 10 ^ 2 := by norm_num; omega
  have hd : t.day < 10 ^ 2 := by norm_num; omega
  have hh : t.hour < 10 ^ 2 := by norm_num; omega
  have hmi : t.minute < 10 ^ 2 := by norm_num; omega
  have hs : t.second < 10 ^ 2 := by norm_num; omega
  unfold marshalDateTime
  rw [if_neg (by simp [hu])]
  rw [fmt0_eq_decimalFix 3 _ hy, fmt0_eq_decimalFix 1 _ hm, fmt0_eq_decimalFix 1 _ hd,
    fmt0_eq_decimalFix 1 _ hh, fmt0_eq_decimalFix 1 _ hmi, fmt0_eq_decimalFix 1 _ hs]
  rw [decimalFix_append 4 2 _ _ hm, decimalFix_append 6 2 _ _ hd,
    decimalFix_append 8 2 _ _ hh, decimalFix_append 10 2 _ _ hmi,
    decimalFix_append 12 2 _ _ hs]
  norm_num [packDT]

theorem marshalDateTime_repr_pos (t : PyDateTime) (h : validDT t) (hu : t.micro ≠ 0) :
    marshalDateTime t = decimalFix 20 (packDT t * 10 ^ 6 + t.micro) := by
  obtain ⟨h1, h2, h3, h4, h5, h6, h7, h8, h9, h10⟩ := h
  have hy : t.year < 10 ^ 4 := by norm_num; omega
  have hm : t.month < 10 ^ 2 := by norm_num; omega
  have hd : t.day < 10 ^ 2 := by norm_num; omega
  have hh : t.hour < 10 ^ 2 := by norm_num; omega
  have hmi : t.minute < 10 ^ 2 := by norm_num; omega
  have hs : t.second < 10 ^ 2 := by norm_num; omega
  have hus : t.micro < 10 ^ 6 := by norm_num; omega
  unfold marshalDateTime
  rw [if_pos hu]
  rw [fmt0_eq_decimalFix 3 _ hy, fmt0_eq_decimalFix 1 _ hm, fmt0_eq_decimalFix 1 _ hd,
    fmt0_eq_decimalFix 1 _ hh, fmt0_eq_decimalFix 1 _ hmi, fmt0_eq_decimalFix 1 _ hs,
    fmt0_eq_decimalFix 5 _ hus]
  rw [decimalFix_append 4 2 _ _ hm, decimalFix_append 6 2 _ _ hd,
    decimalFix_append 8 2 _ _ hh, decimalFix_append 10 2 _ _ hmi,
    decimalFix_append 12 2 _ _ hs, decimalFix_append 14 6 _ _ hus]
  norm_num [packDT]

theorem packDate_lt {a b : PyDate} (ha : validDate a) (hb : validDate b)
    (h : dateLt a b) : packDate a < packDate b := by
  obtain ⟨a1, a2, a3, a4, a5, a6⟩ := ha
  obtain ⟨b1, b2, b3, b4, b5, b6⟩ := hb
  unfold dateLt at h
  unfold packDate
  omega

theorem packDT_cases {a b : PyDateTime} (ha : validDT a) (hb : validDT b)
    (h : dtLt a b) :
    packDT a < packDT b ∨ (packDT a = packDT b ∧ a.micro < b.micro) := by
  obtain ⟨a1, a2, a3, a4, a5, a6, a7, a8, a9, a10⟩ := ha
  obtain ⟨b1, b2, b3, b4, b5, b6, b7, b8, b9, b10⟩ := hb
  unfold dtLt at h
  unfold packDT
  omega

/-- C1 (counterexample): the claim fails for negative integers. With
a = -10 < b = -5, `_marshal_value` renders `-00000000010` and
`-00000000005`, and the first is lexicographically greater. -/
theorem C1_counterexample :
    ((-10 : Int) < -5) ∧
      lexLe (marshalScalar (.int (-10))) (marshalScalar (.int (-5))) = false := by
  constructor
  · decide
  · decide

/-- C1 (amended): `_marshal_value` is monotone under ordinary
lexicographic string ordering for booleans, dates, datetimes and text,
and for integers within `[0, 10^12)` (the zero-padded width); it fails
for negative integers (see the counterexample), and floats are delegated
whole to the external engine primitive `xapian.sortable_serialise`. -/
theorem C1_marshal_order_amended :
    (∀ a b : Int, 0 ≤ a → a < b → b < 10 ^ 12 →
      lexLe (marshalScalar (.int a)) (marshalScalar (.int b)) = true) ∧
    (lexLe (marshalScalar (.bool false)) (marshalScalar (.bool true)) = true) ∧
    (∀ a b : PyDate, validDate a → validDate b → dateLt a b →
      lexLe (marshalScalar (.date a)) (marshalScalar (.date b)) = true) ∧
    (∀ a b : PyDateTime, validDT a → validDT b → dtLt a b →
      lexLe (marshalScalar (.datetime a)) (marshalScalar (.datetime b)) = true) ∧
    (∀ a b : List Char, lexLe a b = true →
      lexLe (marshalScalar (.str a)) (marshalScalar (.str b)) = true) := by
  refine ⟨?_, by decide, ?_, ?_, ?_⟩
  · intro a b h0 hab hb
    show lexLe (marshalInt a) (marshalInt b) = true
    rw [marshalInt_repr a h0 (by omega), marshalInt_repr b (by omega) hb]
    apply lexLe_of_lexLt
    apply decimalFix_lt 12 a.toNat b.toNat (by omega)
    have : (10 : Nat) ^ 12 = 1000000000000 := by norm_num
    have hpow : (10 : Int) ^ 12 = 1000000000000 := by norm_num
    omega
  · intro a b ha hb hab
    show lexLe (marshalDate a) (marshalDate b) = true
    rw [marshalDate_repr a ha, marshalDate_repr b hb]
    apply lexLe_of_lexLt
    apply decimalFix_lt 14 _ _ (by have := packDate_lt ha hb hab; omega)
    obtain ⟨b1, b2, b3, b4, b5, b6⟩ := hb
    have : packDate b ≤ (9999 * 100 + 12) * 100 + 31 := by unfold packDate; omega
    norm_num
    omega
  · intro a b ha hb hab
    show lexLe (marshalDateTime a) (marshalDateTime b) = true
    have hpb : packDT b < 10 ^ 14 := by
      obtain ⟨b1, b2, b3, b4, b5, b6, b7, b8, b9, b10⟩ := hb
      unfold packDT
      norm_num
      omega
    have hub : b.micro < 10 ^ 6 := by
      obtain ⟨b1, b2, b3, b4, b5, b6, b7, b8, b9, b10⟩ := hb
      norm_num
      omega
    have hua : a.micro < 10 ^ 6 := by
      obtain ⟨a1, a2, a3, a4, a5, a6, a7, a8, a9, a10⟩ := ha
      norm_num
      omega
    apply lexLe_of_lexLt
    rcases packDT_cases ha hb hab with hlt | ⟨heq, hult⟩
    · by_cases hza : a.micro = 0 <;> by_cases hzb : b.micro = 0
      · rw [marshalDateTime_repr_zero a ha hza, marshalDateTime_repr_zero b hb hzb]
        exact decimalFix_lt 14 _ _ hlt hpb
      · rw [marshalDateTime_repr_zero a ha hza, marshalDateTime_repr_pos b hb hzb,
          ← decimalFix_append 14 6 _ _ hub]
        have h1 := @lexLt_append_right (decimalFix 14 (packDT a))
          (decimalFix 14 (packDT b))
          (by rw [decimalFix_length, decimalFix_length])
          (decimalFix_lt 14 _ _ hlt hpb) [] (decimalFix 6 b.micro)
        simpa using h1
      · rw [marshalDateTime_repr_pos a ha hza, marshalDateTime_repr_zero b hb hzb,
          ← decimalFix_append 14 6 _ _ hua]
        have h1 := @lexLt_append_right (decimalFix 14 (packDT a))
          (decimalFix 14 (packDT b))
          (by rw [decimalFix_length, decimalFix_length])
          (decimalFix_lt 14 _ _ hlt hpb) (decimalFix 6 a.micro) []
        simpa using h1
      · rw [marshalDateTime_repr_pos a ha hza, marshalDateTime_repr_pos b hb hzb]
        apply decimalFix_lt 20 _ _ (by norm_num at hua hub ⊢; omega)
        norm_num at hpb hub ⊢
        omega
    · have hzb : b.micro ≠ 0 := by omega
      by_cases hza : a.micro = 0
      · rw [marshalDateTime_repr_zero a ha hza, marshalDateTime_repr_pos b hb hzb,
          ← decimalFix_append 14 6 _ _ hub, heq]
        have hne : decimalFix 6 b.micro ≠ [] := by
          intro hnil
          have := decimalFix_length 6 b.micro
          rw [hnil] at this
          simp at this
        obtain ⟨c, cs, hcs⟩ := List.exists_cons_of_ne_nil hne
        rw [hcs]
        exact lexLt_self_append _ c cs
      · rw [marshalDateTime_repr_pos a ha hza, marshalDateTime_repr_pos b hb hzb, heq]
        apply decimalFix_lt 20 _ _ (by omega)
        norm_num at hpb hub ⊢
        omega
  · intro a b h
    simpa [marshalScalar] using h

/-- C1 (witness): the amended monotonicity theorem applied at concrete
integer, date and datetime inputs. -/
theorem C1_marshal_order_witness :
    lexLe (marshalScalar (.int 7)) (marshalScalar (.int 30)) = true ∧
    lexLe (marshalScalar (.date ⟨2020, 1, 5⟩)) (marshalScalar (.date ⟨2020, 2, 1⟩)) = true ∧
    lexLe (marshalScalar (.datetime ⟨2020, 1, 1, 0, 0, 0, 0⟩))
      (marshalScalar (.datetime ⟨2020, 1, 1, 0, 0, 0, 5⟩)) = true :=
  ⟨C1_marshal_order_amended.1 7 30 (by decide) (by decide) (by norm_num),
   C1_marshal_order_amended.2.2.1 _ _ (by decide) (by decide) (by decide),
   C1_marshal_order_amended.2.2.2.1 _ _ (by decide) (by decide) (by decide)⟩

theorem mem_natDigits (n : Nat) : ∀ c ∈ natDigits n, ∃ d, d < 10 ∧ c = digitChar d := by
  induction n using Nat.strong_induction_on with
  | _ n ih =>
    intro c hc
    rw [natDigits_eq] at hc
    by_cases hlt : n < 10
    · rw [if_pos hlt] at hc
      simp at hc
      exact ⟨n, hlt, hc⟩
    · rw [if_neg hlt] at hc
      rcases List.mem_append.mp hc with h | h
      · exact ih (n / 10) (Nat.div_lt_self (by omega) (by omega)) c h
      · simp at h
        exact ⟨n % 10, Nat.mod_lt _ (by omega), h⟩

theorem space_not_mem_marshalInt (v : Int) : ' ' ∉ marshalInt v := by
  have hdig : ∀ n : Nat, ' ' ∉ natDigits n := by
    intro n hmem
    obtain ⟨d, hd, he⟩ := mem_natDigits n ' ' hmem
    have ht := digitChar_toNat hd
    rw [← he] at ht
    simp at ht
    omega
  intro hmem
  unfold marshalInt at hmem
  by_cases hv : v < 0
  · rw [if_pos hv] at hmem
    rcases List.mem_cons.mp hmem with h | h
    · simp at h
    · unfold padZeros at h
      rcases List.mem_append.mp h with h | h
      · have := List.eq_of_mem_replicate h
        simp at this
      · exact hdig _ h
  · rw [if_neg hv] at hmem
    unfold padZeros at hmem
    rcases List.mem_append.mp hmem with h | h
    · have := List.eq_of_mem_replicate h
      simp at this
    · exact hdig _ h

theorem marshalInt_no_space (v : Int) : (marshalInt v).contains ' ' = false := by
  have h := space_not_mem_marshalInt v
  simpa [List.contains, List.elem_eq_mem] using h

theorem cons_beq_false {a b : Char} (h : a ≠ b) (s t : List Char) :
    ((a :: s) == (b :: t)) = false := by
  rw [beq_eq_false_iff_ne]
  intro he
  simp at he
  exact h he.1

/-- C2 (counterexample): compiling the single negated gte filter on
`status` with value 5 does not yield `AND NOT status:5..*`. -/
theorem C2_counterexample :
    buildQuery [⟨lc "status", lc "gte", .scalar (.int 5), Connector.none, true⟩] []
      ≠ some (lc "AND NOT status:5..*") := by
  decide

/-- C2 (amended): the compiled query is `NOT status:000000000005..*`:
the value is marshalled to its 12-digit zero-padded form, and the `AND`
prepended by the negation rule is the very first emitted token, so the
leading-token strip removes it. -/
theorem C2_negated_gte_amended :
    buildQuery [⟨lc "status", lc "gte", .scalar (.int 5), Connector.none, true⟩] []
      = some (lc "NOT status:000000000005..*") := by
  decide

/-- C9: in `build_query` a scalar filter value is marshalled before
emission while the elements of an `in` list are rendered with plain
string formatting and never marshalled, so the exact filter on the
integer 5 and the `in` filter on `[5]` emit different value texts for
the same field. -/
theorem C9_in_values_not_marshalled :
    (∀ v : Int,
      buildQuery [⟨lc "status", lc "exact", .scalar (.int v), Connector.none, false⟩] []
        = some (lc "status:" ++ marshalInt v)) ∧
    (∀ l : List Int,
      buildQuery [⟨lc "status", lc "in", .list (l.map PyScalar.int), Connector.none, false⟩] []
        = some ('(' :: joinSep (lc " OR ")
            ((l.map PyScalar.int).map (fun sc => lc "status" ++ ':' :: pyStrScalar sc)) ++ [')'])) ∧
    (buildQuery [⟨lc "status", lc "exact", .scalar (.int 5), Connector.none, false⟩] []
      = some (lc "status:000000000005")) ∧
    (buildQuery [⟨lc "status", lc "in", .list [.int 5], Connector.none, false⟩] []
      = some (lc "(status:5)")) ∧
    lc "status:000000000005" ≠ lc "(status:5)" := by
  refine ⟨?_, ?_, by decide, by decide, by decide⟩
  · intro v
    have hnc : (lc "status" == lc "content") = false := by decide
    have hft : (lc "exact" == lc "in") = false := by decide
    have hpf : perFilterChunks ⟨lc "status", lc "exact", .scalar (.int v), Connector.none, false⟩
        = some [lc "status" ++ ':' :: marshalInt v] := by
      unfold perFilterChunks
      simp only [QueryFilter.is_and, QueryFilter.is_or, QueryFilter.is_not,
        procValue, procValueStr, filterPattern, marshalScalar, hnc, hft,
        marshalInt_no_space]
      simp
    unfold buildQuery
    have hcons : lc "status" ++ ':' :: marshalInt v = 's' :: (lc "tatus:" ++ marshalInt v) := rfl
    have hA : (('s' :: (lc "tatus:" ++ marshalInt v)) == lc "AND") = false :=
      cons_beq_false (by decide) _ _
    have hO : (('s' :: (lc "tatus:" ++ marshalInt v)) == lc "OR") = false :=
      cons_beq_false (by decide) _ _
    simp only [List.isEmpty, collectChunks, hpf, List.append_nil, hcons]
    simp [hA, hO, joinSep]
    rfl
  · intro l
    have hnc : (lc "status" == lc "content") = false := by decide
    have hmem : ((l.map PyScalar.int).contains (PyScalar.str [' '])) = false := by
      simp [List.contains, List.elem_eq_mem]
    have hpf : perFilterChunks ⟨lc "status", lc "in", .list (l.map PyScalar.int), Connector.none, false⟩
        = some ['(' :: joinSep (lc " OR ")
            ((l.map PyScalar.int).map (fun sc => lc "status" ++ ':' :: pyStrScalar sc)) ++ [')']] := by
      unfold perFilterChunks
      simp only [QueryFilter.is_and, QueryFilter.is_or, QueryFilter.is_not,
        procValue, hnc, hmem, inOptions]
      simp
    unfold buildQuery
    have hA : (('(' :: (joinSep (lc " OR ")
        ((l.map PyScalar.int).map (fun sc => lc "status" ++ ':' :: pyStrScalar sc)) ++ [')'])) == lc "AND") = false :=
      cons_beq_false (by decide) _ _
    have hO : (('(' :: (joinSep (lc " OR ")
        ((l.map PyScalar.int).map (fun sc => lc "status" ++ ':' :: pyStrScalar sc)) ++ [')'])) == lc "OR") = false :=
      cons_beq_false (by decide) _ _
    simp only [List.isEmpty, collectChunks, hpf, List.append_nil]
    simp [hA, hO, joinSep]

/-- C10: `_value_column` returns 0 for every field name absent from the
schema, so sorting by an unknown field silently sorts by value slot 0,
the column `build_schema` assigns to the first indexed field. -/
theorem C10_unknown_field_sorts_slot_zero :
    (∀ (schema : List FieldDict) (f : List Char),
      (∀ fd ∈ schema, fd.field_name ≠ f) → valueColumn schema f = 0) ∧
    (∀ (schema : List FieldDict) (f : List Char), f.head? ≠ some '-' →
      (∀ fd ∈ schema, fd.field_name ≠ f) → sorter schema [f] = [(0, false)]) ∧
    (∀ (schema : List FieldDict) (f : List Char),
      (∀ fd ∈ schema, fd.field_name ≠ f) → sorter schema ['-' :: f] = [(0, true)]) ∧
    (∀ (fields : List (List Char × FieldClass)) (fd : FieldDict),
      (buildSchema fields).2.head? = some fd → fd.column = 0) := by
  have hvc : ∀ (schema : List FieldDict) (f : List Char),
      (∀ fd ∈ schema, fd.field_name ≠ f) → valueColumn schema f = 0 := by
    intro schema
    induction schema with
    | nil => intro f _; rfl
    | cons fd rest ih =>
      intro f h
      unfold valueColumn
      rw [beq_eq_false_iff_ne.mpr (h fd (by simp))]
      exact ih f (fun fd2 hm => h fd2 (by simp [hm]))
  refine ⟨hvc, ?_, ?_, ?_⟩
  · intro schema f hh h
    cases f with
    | nil =>
      show [(valueColumn schema [], false)] = [(0, false)]
      rw [hvc schema [] h]
    | cons c cs =>
      have hcne : c ≠ '-' := by
        intro he
        apply hh
        rw [he]
        rfl
      show [sorterEntry schema (c :: cs)] = [(0, false)]
      have hse : sorterEntry schema (c :: cs) = (valueColumn schema (c :: cs), false) := by
        unfold sorterEntry
        split
        · rename_i heq
          rw [List.cons.injEq] at heq
          exact absurd heq.1 hcne
        · rfl
      rw [hse, hvc schema (c :: cs) h]
  · intro schema f h
    show [(valueColumn schema f, true)] = [(0, true)]
    rw [hvc schema f h]
  · have haux : ∀ (fields : List (List Char × FieldClass)) (content : List Char)
        (col : Nat) (fd : FieldDict),
        (buildSchemaAux fields content col).2.head? = some fd → fd.column = col := by
      intro fields
      induction fields with
      | nil => intro content col fd h; simp [buildSchemaAux] at h
      | cons p rest ih =>
        intro content col fd h
        obtain ⟨name, fc⟩ := p
        unfold buildSchemaAux at h
        by_cases hi : fc.indexed
        · simp only [hi, if_true] at h
          simp at h
          rw [← h]
        · simp only [hi, if_false] at h
          exact ih _ _ fd h
    intro fields fd h
    exact haux fields (lc "") 0 fd h

/-- C10 (witness): slot-0 fallback applied at a concrete two-field
schema and the unknown field name `missing`. -/
theorem C10_unknown_field_witness :
    valueColumn [⟨lc "name", lc "text", lc "false", 0⟩, ⟨lc "age", lc "long", lc "false", 1⟩]
      (lc "missing") = 0 ∧
    sorter [⟨lc "name", lc "text", lc "false", 0⟩, ⟨lc "age", lc "long", lc "false", 1⟩]
      [lc "missing"] = [(0, false)] ∧
    sorter [⟨lc "name", lc "text", lc "false", 0⟩, ⟨lc "age", lc "long", lc "false", 1⟩]
      [lc "-missing"] = [(0, true)] :=
  ⟨C10_unknown_field_sorts_slot_zero.1 _ _ (by decide),
   C10_unknown_field_sorts_slot_zero.2.1 _ _ (by decide) (by decide),
   C10_unknown_field_sorts_slot_zero.2.2.1 _ (lc "missing") (by decide)⟩

theorem findCharIdx_append (fname lo : List Char) (h : ':' ∉ fname) :
    findCharIdx ':' (fname ++ ':' :: lo) = some fname.length := by
  induction fname with
  | nil => simp [findCharIdx]
  | cons c cs ih =>
    simp only [List.cons_append, findCharIdx]
    rw [if_neg (by simp at h ⊢; exact fun he => absurd he.symm h.1)]
    simp only [List.append_eq]
    rw [ih (by simp at h; exact h.2)]
    rfl

theorem splitColon_append (fname lo : List Char) (h : ':' ∉ fname) :
    splitColon (fname ++ ':' :: lo) = (fname, lo) := by
  unfold splitColon
  rw [findCharIdx_append fname lo h]
  show (List.take fname.length (fname ++ ':' :: lo),
    List.drop (fname.length + 1) (fname ++ ':' :: lo)) = (fname, lo)
  congr 1
  · exact List.take_left fname (':' :: lo)
  · rw [List.append_cons]
    have hl : (fname ++ [':']).length = fname.length + 1 := by simp
    rw [← hl, List.drop_left]

theorem xhvrpCall_found {F : Type} (fm : FloatModel F) (schema : List FieldDict)
    (fname lo hi : List Char) (fd : FieldDict) (hf : ':' ∉ fname)
    (hfind : findFieldDict schema fname = some fd) :
    xhvrpCall fm schema (fname ++ ':' :: lo) hi = xhvrpBody fm fd lo hi := by
  unfold xhvrpCall
  rw [splitColon_append fname lo hf]
  simp [hfind]

theorem xhvrpBody_text_lo {F : Type} (fm : FloatModel F) (fd : FieldDict)
    (hi : List Char) (ht : fd.type = lc "text") :
    xhvrpBody fm fd [] hi = .ok (some (fd.column, lc "a", hi)) := by
  unfold xhvrpBody vrpSubstitute
  rw [ht]
  simp [(show (lc "text" == lc "float") = false by decide),
    (show (lc "text" == lc "long") = false by decide),
    (show (lc "text" == lc "text") = true by decide), rbStr]

theorem xhvrpBody_text_star {F : Type} (fm : FloatModel F) (fd : FieldDict)
    (lo : List Char) (ht : fd.type = lc "text") (hlo : lo ≠ []) :
    xhvrpBody fm fd lo (lc "*") = .ok (some (fd.column, lo, List.replicate 100 'z')) := by
  unfold xhvrpBody vrpSubstitute
  rw [ht]
  simp [(show (lc "text" == lc "float") = false by decide),
    (show (lc "text" == lc "long") = false by decide),
    (show (lc "text" == lc "text") = true by decide),
    List.isEmpty_iff, hlo, rbStr]

theorem xhvrpBody_date_lo {F : Type} (fm : FloatModel F) (fd : FieldDict)
    (hi : List Char) (ht : fd.type = lc "date" ∨ fd.type = lc "datetime") :
    xhvrpBody fm fd [] hi = .ok (some (fd.column, lc "00010101000000", hi)) := by
  unfold xhvrpBody vrpSubstitute
  rcases ht with ht | ht <;> rw [ht]
  · simp [(show (lc "date" == lc "float") = false by decide),
      (show (lc "date" == lc "long") = false by decide),
      (show (lc "date" == lc "text") = false by decide),
      (show (lc "date" == lc "date") = true by decide), rbStr]
  · simp [(show (lc "datetime" == lc "float") = false by decide),
      (show (lc "datetime" == lc "long") = false by decide),
      (show (lc "datetime" == lc "text") = false by decide),
      (show (lc "datetime" == lc "date") = false by decide),
      (show (lc "datetime" == lc "datetime") = true by decide), rbStr]

theorem xhvrpBody_date_star {F : Type} (fm : FloatModel F) (fd : FieldDict)
    (lo : List Char) (ht : fd.type = lc "date" ∨ fd.type = lc "datetime")
    (hlo : lo ≠ []) :
    xhvrpBody fm fd lo (lc "*") = .ok (some (fd.column, lo, lc "99990101000000")) := by
  unfold xhvrpBody vrpSubstitute
  rcases ht with ht | ht <;> rw [ht]
  · simp [(show (lc "date" == lc "float") = false by decide),
      (show (lc "date" == lc "long") = false by decide),
      (show (lc "date" == lc "text") = false by decide),
      (show (lc "date" == lc "date") = true by decide),
      List.isEmpty_iff, hlo, rbStr]
  · simp [(show (lc "datetime" == lc "float") = false by decide),
      (show (lc "datetime" == lc "long") = false by decide),
      (show (lc "datetime" == lc "text") = false by decide),
      (show (lc "datetime" == lc "date") = false by decide),
      (show (lc "datetime" == lc "datetime") = true by decide),
      List.isEmpty_iff, hlo, rbStr]

theorem xhvrpBody_long_lo {F : Type} (fm : FloatModel F) (fd : FieldDict)
    (hi : List Char) (ie : Int) (ht : fd.type = lc "long")
    (hie : parseInt hi = some ie) :
    xhvrpBody fm fd [] hi
      = .ok (some (fd.column, marshalInt (-sysMaxInt - 1), marshalInt ie)) := by
  unfold xhvrpBody vrpSubstitute
  rw [ht]
  simp [(show (lc "long" == lc "float") = false by decide),
    (show (lc "long" == lc "text") = false by decide),
    (show (lc "long" == lc "long") = true by decide), rbToInt, hie]

theorem xhvrpBody_long_lo_star {F : Type} (fm : FloatModel F) (fd : FieldDict)
    (ht : fd.type = lc "long") :
    xhvrpBody fm fd [] (lc "*") = .error () := by
  unfold xhvrpBody vrpSubstitute
  rw [ht]
  simp [(show (lc "long" == lc "float") = false by decide),
    (show (lc "long" == lc "text") = false by decide),
    (show (lc "long" == lc "long") = true by decide), rbToInt,
    (show parseInt (lc "*") = none by decide)]

theorem xhvrpBody_long_star {F : Type} (fm : FloatModel F) (fd : FieldDict)
    (lo : List Char) (ib : Int) (ht : fd.type = lc "long") (hlo : lo ≠ [])
    (hib : parseInt lo = some ib) :
    xhvrpBody fm fd lo (lc "*")
      = .ok (some (fd.column, marshalInt ib, marshalInt sysMaxInt)) := by
  unfold xhvrpBody vrpSubstitute
  rw [ht]
  simp [(show (lc "long" == lc "float") = false by decide),
    (show (lc "long" == lc "text") = false by decide),
    (show (lc "long" == lc "long") = true by decide), rbToInt,
    List.isEmpty_iff, hlo, hib]

theorem xhvrpBody_float_lo {F : Type} (fm : FloatModel F) (fd : FieldDict)
    (hi : List Char) (fe : F) (ht : fd.type = lc "float")
    (hfe : fm.parse hi = some fe) :
    xhvrpBody fm fd [] hi
      = .ok (some (fd.column, fm.serialise fm.fneg, fm.serialise fe)) := by
  unfold xhvrpBody vrpSubstitute
  rw [ht]
  simp [(show (lc "float" == lc "float") = true by decide),
    (show (lc "float" == lc "text") = false by decide),
    (show (lc "float" == lc "long") = false by decide), rbToFloat, hfe]

theorem xhvrpBody_float_star {F : Type} (fm : FloatModel F) (fd : FieldDict)
    (lo : List Char) (fb : F) (ht : fd.type = lc "float") (hlo : lo ≠ [])
    (hfb : fm.parse lo = some fb) :
    xhvrpBody fm fd lo (lc "*")
      = .ok (some (fd.column, fm.serialise fb, fm.serialise fm.fpos)) := by
  unfold xhvrpBody vrpSubstitute
  rw [ht]
  simp [(show (lc "float" == lc "float") = true by decide),
    (show (lc "float" == lc "text") = false by decide),
    (show (lc "float" == lc "long") = false by decide), rbToFloat,
    List.isEmpty_iff, hlo, hfb]

theorem xhvrpBody_float_lo_star {F : Type} (fm : FloatModel F) (fd : FieldDict)
    (ht : fd.type = lc "float") (hstar : fm.parse (lc "*") = none) :
    xhvrpBody fm fd [] (lc "*") = .error () := by
  unfold xhvrpBody vrpSubstitute
  rw [ht]
  simp [(show (lc "float" == lc "float") = true by decide),
    (show (lc "float" == lc "text") = false by decide),
    (show (lc "float" == lc "long") = false by decide), rbToFloat, hstar]

/-- C3 (counterexample): on a token whose low bound is empty and whose
high bound is `*` over a date field, the processor substitutes only the
low sentinel; the `elif` leaves the high bound as the literal `*`, not
the maximum sentinel `99990101000000`. -/
theorem C3_counterexample :
    @xhvrpCall Unit ⟨fun _ => none, (), (), fun _ => []⟩
      [⟨lc "pub", lc "date", lc "false", 0⟩] (lc "pub:") (lc "*")
      = .ok (some (0, lc "00010101000000", lc "*")) ∧
    lc "*" ≠ lc "99990101000000" := by
  constructor
  · rfl
  · decide

/-- C3 (amended): for a range token over a schema field the processor
substitutes the type-specific minimum sentinel when the low bound is
empty (text `a`, long `-sys.maxint - 1`, float `-inf`, date
`00010101000000`), and the type-specific maximum sentinel when the low
bound is nonempty and the high bound is `*` (text 100 `z`, long
`sys.maxint`, float `+inf`, date `99990101000000`); when both conditions
hold only the low substitution occurs: text and date fields return `*`
unchanged and long/float fields raise a conversion error, the float
case under the model hypothesis that the engine-side `float` parse
rejects the literal `*` as Python `float` does. -/
theorem C3_range_sentinels_amended {F : Type} (fm : FloatModel F)
    (schema : List FieldDict) (fname lo hi : List Char) (fd : FieldDict)
    (hf : ':' ∉ fname) (hfind : findFieldDict schema fname = some fd) :
    (fd.type = lc "text" → lo = [] →
      xhvrpCall fm schema (fname ++ ':' :: lo) hi
        = .ok (some (fd.column, lc "a", hi))) ∧
    (fd.type = lc "text" → lo ≠ [] → hi = lc "*" →
      xhvrpCall fm schema (fname ++ ':' :: lo) hi
        = .ok (some (fd.column, lo, List.replicate 100 'z'))) ∧
    ((fd.type = lc "date" ∨ fd.type = lc "datetime") → lo = [] →
      xhvrpCall fm schema (fname ++ ':' :: lo) hi
        = .ok (some (fd.column, lc "00010101000000", hi))) ∧
    ((fd.type = lc "date" ∨ fd.type = lc "datetime") → lo ≠ [] → hi = lc "*" →
      xhvrpCall fm schema (fname ++ ':' :: lo) hi
        = .ok (some (fd.column, lo, lc "99990101000000"))) ∧
    (fd.type = lc "long" → lo = [] → ∀ ie : Int, parseInt hi = some ie →
      xhvrpCall fm schema (fname ++ ':' :: lo) hi
        = .ok (some (fd.column, marshalInt (-sysMaxInt - 1), marshalInt ie))) ∧
    (fd.type = lc "long" → lo = [] → hi = lc "*" →
      xhvrpCall fm schema (fname ++ ':' :: lo) hi = .error ()) ∧
    (fd.type = lc "long" → lo ≠ [] → hi = lc "*" → ∀ ib : Int, parseInt lo = some ib →
      xhvrpCall fm schema (fname ++ ':' :: lo) hi
        = .ok (some (fd.column, marshalInt ib, marshalInt sysMaxInt))) ∧
    (fd.type = lc "float" → lo = [] → ∀ fe : F, fm.parse hi = some fe →
      xhvrpCall fm schema (fname ++ ':' :: lo) hi
        = .ok (some (fd.column, fm.serialise fm.fneg, fm.serialise fe))) ∧
    (fd.type = lc "float" → lo ≠ [] → hi = lc "*" → ∀ fb : F, fm.parse lo = some fb →
      xhvrpCall fm schema (fname ++ ':' :: lo) hi
        = .ok (some (fd.column, fm.serialise fb, fm.serialise fm.fpos))) ∧
    (fd.type = lc "float" → lo = [] → hi = lc "*" → fm.parse (lc "*") = none →
      xhvrpCall fm schema (fname ++ ':' :: lo) hi = .error ()) := by
  have hc := xhvrpCall_found fm schema fname lo hi fd hf hfind
  refine ⟨?_, ?_, ?_, ?_, ?_, ?_, ?_, ?_, ?_, ?_⟩
  · intro ht hlo
    subst hlo
    rw [hc]
    exact xhvrpBody_text_lo fm fd hi ht
  · intro ht hlo hhi
    subst hhi
    rw [hc]
    exact xhvrpBody_text_star fm fd lo ht hlo
  · intro ht hlo
    subst hlo
    rw [hc]
    exact xhvrpBody_date_lo fm fd hi ht
  · intro ht hlo hhi
    subst hhi
    rw [hc]
    exact xhvrpBody_date_star fm fd lo ht hlo
  · intro ht hlo ie hie
    subst hlo
    rw [hc]
    exact xhvrpBody_long_lo fm fd hi ie ht hie
  · intro ht hlo hhi
    subst hlo hhi
    rw [hc]
    exact xhvrpBody_long_lo_star fm fd ht
  · intro ht hlo hhi ib hib
    subst hhi
    rw [hc]
    exact xhvrpBody_long_star fm fd lo ib ht hlo hib
  · intro ht hlo fe hfe
    subst hlo
    rw [hc]
    exact xhvrpBody_float_lo fm fd hi fe ht hfe
  · intro ht hlo hhi fb hfb
    subst hhi
    rw [hc]
    exact xhvrpBody_float_star fm fd lo fb ht hlo hfb
  · intro ht hlo hhi hstar
    subst hlo hhi
    rw [hc]
    exact xhvrpBody_float_lo_star fm fd ht hstar

/-- C3 (witness): the amended sentinel behaviour applied at concrete
fields: a date field with an empty low bound, a date field with
`hi = *`, and a float field where both conditions hold, which raises. -/
theorem C3_range_sentinels_witness :
    @xhvrpCall Unit ⟨fun _ => none, (), (), fun _ => []⟩
      [⟨lc "pub", lc "date", lc "false", 0⟩] (lc "pub:") (lc "20091231")
      = .ok (some (0, lc "00010101000000", lc "20091231")) ∧
    @xhvrpCall Unit ⟨fun _ => none, (), (), fun _ => []⟩
      [⟨lc "pub", lc "date", lc "false", 0⟩] (lc "pub:20090101") (lc "*")
      = .ok (some (0, lc "20090101", lc "99990101000000")) ∧
    @xhvrpCall Unit ⟨fun _ => none, (), (), fun _ => []⟩
      [⟨lc "price", lc "float", lc "false", 3⟩] (lc "price:") (lc "*")
      = .error () :=
  ⟨(C3_range_sentinels_amended ⟨fun _ => none, (), (), fun _ => []⟩
      [⟨lc "pub", lc "date", lc "false", 0⟩] (lc "pub") [] (lc "20091231")
      ⟨lc "pub", lc "date", lc "false", 0⟩ (by decide) (by decide)).2.2.1
      (Or.inl rfl) rfl,
   (C3_range_sentinels_amended ⟨fun _ => none, (), (), fun _ => []⟩
      [⟨lc "pub", lc "date", lc "false", 0⟩] (lc "pub") (lc "20090101") (lc "*")
      ⟨lc "pub", lc "date", lc "false", 0⟩ (by decide) (by decide)).2.2.2.1
      (Or.inl rfl) (by decide) rfl,
   (C3_range_sentinels_amended ⟨fun _ => none, (), (), fun _ => []⟩
      [⟨lc "price", lc "float", lc "false", 3⟩] (lc "price") [] (lc "*")
      ⟨lc "price", lc "float", lc "false", 3⟩ (by decide)
      (by decide)).2.2.2.2.2.2.2.2.2 rfl rfl rfl rfl⟩

/-- C5: `more_like_this` never returns the seed entity itself (every
result document lacks the seed's identifier term, which the derived
query excludes via `OP_AND_NOT`), and no expansion term carrying the
`XCONTENTTYPE` type-marker head survives the `XHExpandDecider` filter. -/
theorem C5_mlt_excludes_seed_and_marker_terms :
    (∀ (db : List StoredDoc) (cands : List (List Char)) (idT : List Char)
      (addq : Option (StoredDoc → Bool)) (s e : Nat) (d : StoredDoc),
      d ∈ mltMatches db cands idT addq s e → idT ∉ d.terms) ∧
    (∀ (db : List StoredDoc) (cands : List (List Char)) (idT : List Char)
      (addq : Option (StoredDoc → Bool)) (s e : Nat) (seed : StoredDoc),
      idT ∈ seed.terms → seed ∉ mltMatches db cands idT addq s e) ∧
    (∀ (cands : List (List Char)) (t : List Char),
      t ∈ mltExpansionTerms cands → hasStart documentCtTermMark t = false) := by
  have h1 : ∀ (db : List StoredDoc) (cands : List (List Char)) (idT : List Char)
      (addq : Option (StoredDoc → Bool)) (s e : Nat) (d : StoredDoc),
      d ∈ mltMatches db cands idT addq s e → idT ∉ d.terms := by
    intro db cands idT addq s e d hmem
    have hd : d ∈ db.filter (matchesQ (mltQuery cands idT addq)) :=
      List.mem_of_mem_drop (List.mem_of_mem_take hmem)
    have hp := (List.mem_filter.mp hd).2
    unfold mltQuery at hp
    intro hterm
    have hcont : d.terms.contains idT = true := by
      simpa [List.contains, List.elem_eq_mem] using hterm
    cases addq with
    | none =>
      simp [matchesQ] at hp
      exact hp.2 hterm
    | some p =>
      simp [matchesQ] at hp
      exact hp.1.2 hterm
  refine ⟨h1, ?_, ?_⟩
  · intro db cands idT addq s e seed hterm hmem
    exact h1 db cands idT addq s e seed hmem hterm
  · intro cands t hmem
    have h := (List.mem_filter.mp hmem).2
    unfold xhExpandDecider at h
    by_cases hs : hasStart documentCtTermMark t
    · simp [hs] at h
    · simpa using hs

/-- C5 (witness): the exclusion applied at a concrete two-document
store with a marker term among the expansion candidates. -/
theorem C5_mlt_excludes_seed_witness :
    lc "Qapp.model.1" ∉ (⟨2, [lc "t1"], []⟩ : StoredDoc).terms ∧
    (⟨1, [lc "Qapp.model.1"], []⟩ : StoredDoc) ∉
      mltMatches [⟨1, [lc "Qapp.model.1"], []⟩, ⟨2, [lc "t1"], []⟩]
        [lc "t1", lc "XCONTENTTYPEapp.model"] (lc "Qapp.model.1") none 0 100000 ∧
    hasStart documentCtTermMark (lc "t1") = false :=
  ⟨C5_mlt_excludes_seed_and_marker_terms.1
      [⟨1, [lc "Qapp.model.1"], []⟩, ⟨2, [lc "t1"], []⟩]
      [lc "t1", lc "XCONTENTTYPEapp.model"] (lc "Qapp.model.1") none 0 100000
      ⟨2, [lc "t1"], []⟩ (by decide),
   C5_mlt_excludes_seed_and_marker_terms.2.1
      [⟨1, [lc "Qapp.model.1"], []⟩, ⟨2, [lc "t1"], []⟩]
      [lc "t1", lc "XCONTENTTYPEapp.model"] (lc "Qapp.model.1") none 0 100000
      ⟨1, [lc "Qapp.model.1"], []⟩ (by decide),
   C5_mlt_excludes_seed_and_marker_terms.2.2
      [lc "t1", lc "XCONTENTTYPEapp.model"] (lc "t1") (by decide)⟩

theorem deleteFold_eq_filter (ids : List Nat) : ∀ db : List StoredDoc,
    ids.foldl (fun st i => st.filter (fun d => d.docid != i)) db
      = db.filter (fun d => !(ids.contains d.docid)) := by
  induction ids with
  | nil => intro db; simp
  | cons i ids ih =>
    intro db
    simp only [List.foldl_cons]
    rw [ih, List.filter_filter]
    apply List.filter_congr
    intro d _
    simp only [List.contains, bne, Bool.and_comm]
    show (!(d.docid == i) && !List.elem d.docid ids) = !List.elem d.docid (i :: ids)
    cases h : d.docid == i <;> simp [List.elem, h]

/-- C6 (counterexample): on a store of 100001 documents, `clear()` with
no models deletes only the first `DEFAULT_MAX_RESULTS` (100000) matches
of the universal query, so one document survives and the count is 1,
not 0. -/
theorem C6_counterexample :
    documentCount (clearAll ((List.range 100001).map (fun i => ⟨i, [], []⟩))) = 1 ∧
    (1 : Nat) ≠ 0 := by
  constructor
  · have hbig : (List.range 100001).map (fun i => (⟨i, [], []⟩ : StoredDoc))
        = (List.range 100000).map (fun i => ⟨i, [], []⟩) ++ [⟨100000, [], []⟩] := by
      rw [List.range_succ, List.map_append]
      rfl
    unfold clearAll
    rw [deleteFold_eq_filter]
    have hids : ((((List.range 100001).map (fun i => (⟨i, [], []⟩ : StoredDoc))).take
        defaultMaxResults).map (fun d => d.docid)) = List.range 100000 := by
      rw [← List.map_take, List.take_range, List.map_map]
      have hmin : min defaultMaxResults 100001 = 100000 := by decide
      rw [hmin]
      have hcomp : ((fun (d : StoredDoc) => d.docid) ∘ fun i => (⟨i, [], []⟩ : StoredDoc))
          = id := rfl
      rw [hcomp, List.map_id]
    rw [hids, hbig, List.filter_append]
    have h1 : ((List.range 100000).map (fun i => (⟨i, [], []⟩ : StoredDoc))).filter
        (fun d => !((List.range 100000).contains d.docid)) = [] := by
      rw [List.filter_eq_nil_iff]
      intro d hd
      obtain ⟨i, hi, rfl⟩ := List.mem_map.mp hd
      simp [List.contains, List.elem_eq_mem]
      exact List.mem_range.mp hi
    have h2 : ([⟨100000, [], []⟩] : List StoredDoc).filter
        (fun d => !((List.range 100000).contains d.docid)) = [⟨100000, [], []⟩] := by
      simp [List.contains, List.elem_eq_mem]
    rw [h1, h2]
    rfl
  · decide

/-- C6 (amended): `clear()` with no models empties every store holding
at most `DEFAULT_MAX_RESULTS` (100000) documents (larger stores keep
the excess, see the counterexample), and `clear([TypeA])` removes
exactly the documents carrying TypeA's type-marker term. -/
theorem C6_clear_amended :
    (∀ db : List StoredDoc, documentCount db ≤ defaultMaxResults →
      documentCount (clearAll db) = 0) ∧
    (∀ (db : List StoredDoc) (mk : List Char) (d : StoredDoc),
      d ∈ clearModels db [mk] ↔ (d ∈ db ∧ mk ∉ d.terms)) := by
  constructor
  · intro db hlen
    unfold clearAll
    rw [List.take_of_length_le hlen, deleteFold_eq_filter]
    simp only [documentCount, List.length_eq_zero]
    rw [List.filter_eq_nil_iff]
    intro d hd
    simp [List.contains, List.elem_eq_mem]
    exact ⟨d, hd, rfl⟩
  · intro db mk d
    show d ∈ db.filter (fun d => !(d.terms.contains mk)) ↔ _
    rw [List.mem_filter]
    simp [List.contains, List.elem_eq_mem]

/-- C6 (witness): a concrete two-document store is fully emptied by
`clear()`, and `clear` by marker keeps exactly the unmarked document. -/
theorem C6_clear_witness :
    documentCount (clearAll [⟨1, [lc "XCONTENTTYPEa.b"], []⟩, ⟨2, [lc "t"], []⟩]) = 0 ∧
    (⟨2, [lc "t"], []⟩ : StoredDoc) ∈
      clearModels [⟨1, [lc "XCONTENTTYPEa.b"], []⟩, ⟨2, [lc "t"], []⟩]
        [lc "XCONTENTTYPEa.b"] :=
  ⟨C6_clear_amended.1 _ (by decide),
   (C6_clear_amended.2 [⟨1, [lc "XCONTENTTYPEa.b"], []⟩, ⟨2, [lc "t"], []⟩]
      (lc "XCONTENTTYPEa.b") ⟨2, [lc "t"], []⟩).mpr ⟨by decide, by decide⟩⟩

/-- C4 (counterexample): with gap_by = month and gap_amount = 2 from
December 2020 to June 2021, the claimed stepping gives buckets
2020-12-01, 2021-02-01, 2021-04-01 (descending after reversal), but the
code's December rule (`replace(month=1, year=year+gap_amount)`) jumps
to 2022-01-01, past `end_date`, so the code emits the single bucket
2020-12-01. -/
theorem C4_counterexample :
    doDateFacetsSingle 10 (lc "month") 2 ⟨2020, 12, 1, 0, 0, 0, 0⟩
      ⟨2021, 6, 1, 0, 0, 0, 0⟩ [] = some [(lc "2020-12-01T00:00:00", 0)] ∧
    specDateFacets 10 (lc "month") 2 ⟨2020, 12, 1, 0, 0, 0, 0⟩
      ⟨2021, 6, 1, 0, 0, 0, 0⟩ []
      = some [(lc "2021-04-01T00:00:00", 0), (lc "2021-02-01T00:00:00", 0),
          (lc "2020-12-01T00:00:00", 0)] ∧
    ((some [(lc "2020-12-01T00:00:00", 0)] : Option (List (List Char × Nat)))
      ≠ some [(lc "2021-04-01T00:00:00", 0), (lc "2021-02-01T00:00:00", 0),
          (lc "2020-12-01T00:00:00", 0)]) :=
  ⟨by decide, by decide, by decide⟩

theorem daysInMonth_le (y m : Nat) : daysInMonth y m ≤ 31 := by
  unfold daysInMonth
  split_ifs <;> omega

theorem daysInMonth_pos (y m : Nat) : 1 ≤ daysInMonth y m := by
  unfold daysInMonth
  split_ifs <;> omega

/-- Field-bound validity of a (year, month, day) triple, with no upper
year bound (proof helper for the calendar carry). -/
def ymdOk (p : Nat × Nat × Nat) : Prop :=
  1 ≤ p.1 ∧ 1 ≤ p.2.1 ∧ p.2.1 ≤ 12 ∧ 1 ≤ p.2.2 ∧ p.2.2 ≤ 31

/-- Calendar (lexicographic) order on (year, month, day) triples
(proof helper). -/
def ymdLt (a b : Nat × Nat × Nat) : Prop :=
  a.1 < b.1 ∨ (a.1 = b.1 ∧ (a.2.1 < b.2.1 ∨ (a.2.1 = b.2.1 ∧ a.2.2 < b.2.2)))

theorem ymdLt_trans {a b c : Nat × Nat × Nat} (h1 : ymdLt a b) (h2 : ymdLt b c) :
    ymdLt a c := by
  unfold ymdLt at h1 h2 ⊢
  omega

theorem addDaysAux_zero (fuel : Nat) (ymd : Nat × Nat × Nat) :
    addDaysAux (fuel + 1) 0 ymd = ymd := by
  obtain ⟨y, m, d⟩ := ymd
  simp [addDaysAux]

theorem addDaysAux_ok (fuel : Nat) : ∀ (n : Nat) (ymd : Nat × Nat × Nat),
    ymdOk ymd → ymdOk (addDaysAux fuel n ymd) := by
  induction fuel with
  | zero => intro n ymd h; exact h
  | succ fuel ih =>
    intro n ymd h
    obtain ⟨y, m, d⟩ := ymd
    have h' : 1 ≤ y ∧ 1 ≤ m ∧ m ≤ 12 ∧ 1 ≤ d ∧ d ≤ 31 := h
    obtain ⟨h1, h2, h3, h4, h5⟩ := h'
    unfold addDaysAux
    by_cases hn : n = 0
    · simpa [hn] using h
    · simp only [if_neg hn]
      by_cases hfits : d + n ≤ daysInMonth y m
      · simp only [if_pos hfits]
        have := daysInMonth_le y m
        exact ⟨h1, h2, h3, by simp <;> omega, by simp <;> omega⟩
      · simp only [if_neg hfits]
        apply ih
        by_cases hm : m == 12
        · simp only [hm, if_true]
          exact ⟨by simp <;> omega, by simp, by simp, by simp, by simp⟩
        · have hm12 : m ≠ 12 := by
            intro he
            rw [he] at hm
            simp at hm
          simp only [hm, if_false]
          exact ⟨h1, by simp <;> omega, by simp <;> omega, by simp, by simp⟩

theorem addDaysAux_lt (fuel : Nat) : ∀ (n : Nat) (ymd : Nat × Nat × Nat),
    1 ≤ n → n < fuel → ymdOk ymd → ymdLt ymd (addDaysAux fuel n ymd) := by
  induction fuel with
  | zero => intro n ymd hn hf; omega
  | succ fuel ih =>
    intro n ymd hn hf h
    obtain ⟨y, m, d⟩ := ymd
    have h' : 1 ≤ y ∧ 1 ≤ m ∧ m ≤ 12 ∧ 1 ≤ d ∧ d ≤ 31 := h
    obtain ⟨h1, h2, h3, h4, h5⟩ := h'
    unfold addDaysAux
    simp only [if_neg (by omega : ¬ n = 0)]
    by_cases hfits : d + n ≤ daysInMonth y m
    · simp only [if_pos hfits]
      unfold ymdLt
      simp
      omega
    · simp only [if_neg hfits]
      have hdim := daysInMonth_le y m
      have hdimp := daysInMonth_pos y m
      set n2 := n - (daysInMonth y m - d + 1) with hn2
      have hjump : ymdLt (y, m, d) (if m == 12 then (y + 1, 1, 1) else (y, m + 1, 1)) := by
        by_cases hm : m == 12
        · simp only [hm, if_true]
          unfold ymdLt
          simp
        · simp only [hm, if_false]
          unfold ymdLt
          simp
      have hok2 : ymdOk (if m == 12 then (y + 1, 1, 1) else (y, m + 1, 1)) := by
        by_cases hm : m == 12
        · simp only [hm, if_true]
          exact ⟨by simp <;> omega, by simp, by simp, by simp, by simp⟩
        · have hm12 : m ≠ 12 := by
            intro he
            rw [he] at hm
            simp at hm
          simp only [hm, if_false]
          exact ⟨h1, by simp <;> omega, by simp <;> omega, by simp, by simp⟩
      by_cases hz : n2 = 0
      · rw [hz]
        cases fuel with
        | zero => omega
        | succ fuel2 =>
          rw [addDaysAux_zero]
          exact hjump
      · refine ymdLt_trans hjump (ih n2 _ (by omega) (by omega) hok2)

theorem addDays_zero (y m d : Nat) : addDays 0 y m d = (y, m, d) :=
  addDaysAux_zero 0 (y, m, d)

theorem addSeconds_zero (t : PyDateTime) (hv : validDT t) : addSeconds 0 t = t := by
  obtain ⟨y, m, d, h, mi, s, us⟩ := t
  have hv' : 1 ≤ y ∧ y ≤ 9999 ∧ 1 ≤ m ∧ m ≤ 12 ∧ 1 ≤ d ∧ d ≤ 31 ∧ h ≤ 23 ∧
      mi ≤ 59 ∧ s ≤ 59 ∧ us ≤ 999999 := hv
  obtain ⟨_, _, _, _, _, _, h7, h8, h9, _⟩ := hv'
  have e1 : (h * 3600 + mi * 60 + s + 0) / 86400 = 0 := by omega
  have e2 : (h * 3600 + mi * 60 + s + 0) % 86400 / 3600 = h := by omega
  have e3 : (h * 3600 + mi * 60 + s + 0) % 86400 % 3600 / 60 = mi := by omega
  have e4 : (h * 3600 + mi * 60 + s + 0) % 86400 % 60 = s := by omega
  unfold addSeconds
  simp only [e1, e2, e3, e4, addDays_zero]

theorem addSeconds_lt (t : PyDateTime) (n : Nat) (hv : validDT t) (hn : 1 ≤ n) :
    dtLt t (addSeconds n t) := by
  obtain ⟨y, m, d, h, mi, s, us⟩ := t
  have hv' : 1 ≤ y ∧ y ≤ 9999 ∧ 1 ≤ m ∧ m ≤ 12 ∧ 1 ≤ d ∧ d ≤ 31 ∧ h ≤ 23 ∧
      mi ≤ 59 ∧ s ≤ 59 ∧ us ≤ 999999 := hv
  obtain ⟨h1, h2, h3, h4, h5, h6, h7, h8, h9, h10⟩ := hv'
  unfold addSeconds dtLt addDays
  simp only []
  by_cases hdays : (h * 3600 + mi * 60 + s + n) / 86400 = 0
  · rw [hdays, addDaysAux_zero]
    simp
    omega
  · have hok : ymdOk (y, m, d) := ⟨h1, h3, h4, h5, h6⟩
    have hlt := addDaysAux_lt ((h * 3600 + mi * 60 + s + n) / 86400 + 1)
      ((h * 3600 + mi * 60 + s + n) / 86400) (y, m, d) (by omega) (by omega) hok
    unfold ymdLt at hlt
    simp only [] at hlt
    omega

theorem addSeconds_valid (t : PyDateTime) (n : Nat) (hv : validDT t)
    (hy : (addSeconds n t).year ≤ 9999) : validDT (addSeconds n t) := by
  obtain ⟨y, m, d, h, mi, s, us⟩ := t
  have hv' : 1 ≤ y ∧ y ≤ 9999 ∧ 1 ≤ m ∧ m ≤ 12 ∧ 1 ≤ d ∧ d ≤ 31 ∧ h ≤ 23 ∧
      mi ≤ 59 ∧ s ≤ 59 ∧ us ≤ 999999 := hv
  obtain ⟨h1, h2, h3, h4, h5, h6, h7, h8, h9, h10⟩ := hv'
  have hok := addDaysAux_ok ((h * 3600 + mi * 60 + s + n) / 86400 + 1)
    ((h * 3600 + mi * 60 + s + n) / 86400) (y, m, d) ⟨h1, h3, h4, h5, h6⟩
  have hok' : 1 ≤ (addDaysAux ((h * 3600 + mi * 60 + s + n) / 86400 + 1)
      ((h * 3600 + mi * 60 + s + n) / 86400) (y, m, d)).1 ∧
    1 ≤ (addDaysAux ((h * 3600 + mi * 60 + s + n) / 86400 + 1)
      ((h * 3600 + mi * 60 + s + n) / 86400) (y, m, d)).2.1 ∧
    (addDaysAux ((h * 3600 + mi * 60 + s + n) / 86400 + 1)
      ((h * 3600 + mi * 60 + s + n) / 86400) (y, m, d)).2.1 ≤ 12 ∧
    1 ≤ (addDaysAux ((h * 3600 + mi * 60 + s + n) / 86400 + 1)
      ((h * 3600 + mi * 60 + s + n) / 86400) (y, m, d)).2.2 ∧
    (addDaysAux ((h * 3600 + mi * 60 + s + n) / 86400 + 1)
      ((h * 3600 + mi * 60 + s + n) / 86400) (y, m, d)).2.2 ≤ 31 := hok
  unfold addSeconds addDays at hy ⊢
  simp only [] at hy ⊢
  unfold validDT
  simp only []
  obtain ⟨k1, k2, k3, k4, k5⟩ := hok'
  refine ⟨k1, hy, k2, k3, k4, k5, by omega, by omega, by omega, h10⟩

theorem genBuckets_fix {gt : List Char} {gap : Nat} {t endd : PyDateTime}
    (hfix : stepBucket gt gap t = some t) :
    ∀ fuel, dtLt t endd → genBucketsAux fuel gt gap t endd = none := by
  intro fuel
  induction fuel with
  | zero => intro _; rfl
  | succ fuel ih =>
    intro hlt
    unfold genBucketsAux
    rw [if_pos hlt, hfix]
    show (match genBucketsAux fuel gt gap t endd with
      | some rest => some ((isoFormat t, 0) :: rest)
      | none => none) = none
    rw [ih hlt]

theorem stepBucket_ok {gt : List Char} {gap : Nat} {t t2 : PyDateTime}
    (hv : validDT t) (hm : gt = lc "month" → gap = 1)
    (hs : stepBucket gt gap t = some t2) (hne : t2 ≠ t) :
    dtLt t t2 ∧ specStep gt gap t = some t2 ∧ validDT t2 ∧ t2.micro = t.micro := by
  have hv' : 1 ≤ t.year ∧ t.year ≤ 9999 ∧ 1 ≤ t.month ∧ t.month ≤ 12 ∧ 1 ≤ t.day ∧
      t.day ≤ 31 ∧ t.hour ≤ 23 ∧ t.minute ≤ 59 ∧ t.second ≤ 59 ∧ t.micro ≤ 999999 := hv
  obtain ⟨b1, b2, b3, b4, b5, b6, b7, b8, b9, b10⟩ := hv'
  unfold stepBucket at hs
  unfold specStep
  by_cases hy : (gt == lc "year") = true
  · simp only [hy, if_true] at hs ⊢
    by_cases hg : t.year + gap ≤ 9999 ∧ t.day ≤ daysInMonth (t.year + gap) t.month
    · rw [if_pos hg] at hs ⊢
      have ht2 : t2 = { t with year := t.year + gap } := (Option.some.inj hs).symm
      subst ht2
      rcases Nat.eq_zero_or_pos gap with hgap | hgap
      · subst hgap
        exact absurd (by cases t; rfl) hne
      · refine ⟨Or.inl (by show t.year < t.year + gap; omega), rfl, ?_, rfl⟩
        have hok : 1 ≤ t.year + gap ∧ t.year + gap ≤ 9999 ∧ 1 ≤ t.month ∧
            t.month ≤ 12 ∧ 1 ≤ t.day ∧ t.day ≤ 31 ∧ t.hour ≤ 23 ∧ t.minute ≤ 59 ∧
            t.second ≤ 59 ∧ t.micro ≤ 999999 := by
          exact ⟨by omega, hg.1, b3, b4, b5, b6, b7, b8, b9, b10⟩
        exact hok
    · rw [if_neg hg] at hs
      exact absurd hs (by simp)
  · have hy' : (gt == lc "year") = false := by simpa using hy
    simp only [hy', Bool.false_eq_true, if_false] at hs ⊢
    by_cases hmo : (gt == lc "month") = true
    · have hgt : gt = lc "month" := by simpa using hmo
      have hgap : gap = 1 := hm hgt
      subst hgap
      simp only [hmo, if_true] at hs ⊢
      by_cases h12 : (t.month == 12) = true
      · have hm12 : t.month = 12 := by simpa using h12
        simp only [h12, if_true] at hs
        by_cases hg : t.year + 1 ≤ 9999 ∧ t.day ≤ daysInMonth (t.year + 1) 1
        · rw [if_pos hg] at hs
          have ht2 : t2 = ⟨t.year + 1, 1, t.day, t.hour, t.minute, t.second, t.micro⟩ :=
            (Option.some.inj hs).symm
          subst ht2
          have hsm : specMonthAdd 1 t.year t.month = (t.year + 1, 1) := by
            unfold specMonthAdd
            rw [hm12]
            have e1 : (12 - 1 + 1) / 12 + t.year = t.year + 1 := by omega
            have e2 : (12 - 1 + 1) % 12 + 1 = 1 := by omega
            rw [e1, e2]
          have hg2 : (specMonthAdd 1 t.year t.month).1 ≤ 9999 ∧
              t.day ≤ daysInMonth (specMonthAdd 1 t.year t.month).1
                (specMonthAdd 1 t.year t.month).2 := by
            rw [hsm]
            exact hg
          rw [if_pos hg2, hsm]
          refine ⟨Or.inl (by show t.year < t.year + 1; omega), rfl, ?_, rfl⟩
          have hok : 1 ≤ t.year + 1 ∧ t.year + 1 ≤ 9999 ∧ 1 ≤ 1 ∧ (1 : Nat) ≤ 12 ∧
              1 ≤ t.day ∧ t.day ≤ 31 ∧ t.hour ≤ 23 ∧ t.minute ≤ 59 ∧ t.second ≤ 59 ∧
              t.micro ≤ 999999 :=
            ⟨by omega, hg.1, by omega, by omega, b5, b6, b7, b8, b9, b10⟩
          exact hok
        · rw [if_neg hg] at hs
          exact absurd hs (by simp)
      · have hm12 : t.month ≠ 12 := by simpa using h12
        simp only [h12, Bool.false_eq_true, if_false] at hs
        by_cases hg : t.month + 1 ≤ 12 ∧ t.day ≤ daysInMonth t.year (t.month + 1)
        · rw [if_pos hg] at hs
          have ht2 : t2 = { t with month := t.month + 1 } := (Option.some.inj hs).symm
          subst ht2
          have hsm : specMonthAdd 1 t.year t.month = (t.year, t.month + 1) := by
            unfold specMonthAdd
            have e1 : (t.month - 1 + 1) / 12 = 0 := by omega
            have e2 : (t.month - 1 + 1) % 12 = t.month := by omega
            rw [e1, e2]
            simp
          have hg2 : (specMonthAdd 1 t.year t.month).1 ≤ 9999 ∧
              t.day ≤ daysInMonth (specMonthAdd 1 t.year t.month).1
                (specMonthAdd 1 t.year t.month).2 := by
            rw [hsm]
            exact ⟨b2, hg.2⟩
          rw [if_pos hg2, hsm]
          refine ⟨Or.inr ⟨rfl, Or.inl (by show t.month < t.month + 1; omega)⟩, ?_, ?_, rfl⟩
          · show some (⟨t.year, t.month + 1, t.day, t.hour, t.minute, t.second, t.micro⟩
              : PyDateTime) = some { t with month := t.month + 1 }
            rfl
          · have hok : 1 ≤ t.year ∧ t.year ≤ 9999 ∧ 1 ≤ t.month + 1 ∧ t.month + 1 ≤ 12 ∧
                1 ≤ t.day ∧ t.day ≤ 31 ∧ t.hour ≤ 23 ∧ t.minute ≤ 59 ∧ t.second ≤ 59 ∧
                t.micro ≤ 999999 :=
              ⟨b1, b2, by omega, hg.1, b5, b6, b7, b8, b9, b10⟩
            exact hok
        · rw [if_neg hg] at hs
          exact absurd hs (by simp)
    · have hmo' : (gt == lc "month") = false := by simpa using hmo
      simp only [hmo', Bool.false_eq_true, if_false] at hs ⊢
      by_cases hd : (gt == lc "day") = true
      · simp only [hd, if_true] at hs ⊢
        by_cases hg : (addDays gap t.year t.month t.day).1 ≤ 9999
        · rw [if_pos hg] at hs ⊢
          have ht2 : t2 = ⟨(addDays gap t.year t.month t.day).1,
              (addDays gap t.year t.month t.day).2.1,
              (addDays gap t.year t.month t.day).2.2,
              t.hour, t.minute, t.second, t.micro⟩ := (Option.some.inj hs).symm
          subst ht2
          rcases Nat.eq_zero_or_pos gap with hgap | hgap
          · subst hgap
            rw [addDays_zero] at hne hg ⊢
            exact absurd (by cases t; rfl) hne
          · have hok : ymdOk (t.year, t.month, t.day) := ⟨b1, b3, b4, b5, b6⟩
            have hlt := addDaysAux_lt (gap + 1) gap (t.year, t.month, t.day)
              hgap (by omega) hok
            have hok2 := addDaysAux_ok (gap + 1) gap (t.year, t.month, t.day) hok
            have hok2' : 1 ≤ (addDaysAux (gap + 1) gap (t.year, t.month, t.day)).1 ∧
                1 ≤ (addDaysAux (gap + 1) gap (t.year, t.month, t.day)).2.1 ∧
                (addDaysAux (gap + 1) gap (t.year, t.month, t.day)).2.1 ≤ 12 ∧
                1 ≤ (addDaysAux (gap + 1) gap (t.year, t.month, t.day)).2.2 ∧
                (addDaysAux (gap + 1) gap (t.year, t.month, t.day)).2.2 ≤ 31 := hok2
            unfold ymdLt at hlt
            unfold addDays at hg ⊢
            refine ⟨?_, rfl, ?_, rfl⟩
            · unfold dtLt
              simp only [] at hlt ⊢
              omega
            · exact ⟨hok2'.1, hg, hok2'.2.1, hok2'.2.2.1, hok2'.2.2.2.1,
                hok2'.2.2.2.2, b7, b8, b9, b10⟩
        · rw [if_neg hg] at hs
          exact absurd hs (by simp)
      · have hd' : (gt == lc "day") = false := by simpa using hd
        simp only [hd', Bool.false_eq_true, if_false] at hs ⊢
        by_cases hh : (gt == lc "hour") = true
        · simp only [hh, if_true] at hs ⊢
          by_cases hg : (addSeconds (gap * 3600) t).year ≤ 9999
          · rw [if_pos hg] at hs ⊢
            have ht2 : t2 = addSeconds (gap * 3600) t := (Option.some.inj hs).symm
            subst ht2
            rcases Nat.eq_zero_or_pos gap with hgap | hgap
            · subst hgap
              rw [show 0 * 3600 = 0 from rfl, addSeconds_zero t hv] at hne
              exact absurd rfl hne
            · exact ⟨addSeconds_lt t _ hv (by omega), rfl,
                addSeconds_valid t _ hv hg, rfl⟩
          · rw [if_neg hg] at hs
            exact absurd hs (by simp)
        · have hh' : (gt == lc "hour") = false := by simpa using hh
          simp only [hh', Bool.false_eq_true, if_false] at hs ⊢
          by_cases hmi : (gt == lc "minute") = true
          · simp only [hmi, if_true] at hs ⊢
            by_cases hg : (addSeconds (gap * 60) t).year ≤ 9999
            · rw [if_pos hg] at hs ⊢
              have ht2 : t2 = addSeconds (gap * 60) t := (Option.some.inj hs).symm
              subst ht2
              rcases Nat.eq_zero_or_pos gap with hgap | hgap
              · subst hgap
                rw [show 0 * 60 = 0 from rfl, addSeconds_zero t hv] at hne
                exact absurd rfl hne
              · exact ⟨addSeconds_lt t _ hv (by omega), rfl,
                  addSeconds_valid t _ hv hg, rfl⟩
            · rw [if_neg hg] at hs
              exact absurd hs (by simp)
          · have hmi' : (gt == lc "minute") = false := by simpa using hmi
            simp only [hmi', Bool.false_eq_true, if_false] at hs ⊢
            by_cases hse : (gt == lc "second") = true
            · simp only [hse, if_true] at hs ⊢
              by_cases hg : (addSeconds gap t).year ≤ 9999
              · rw [if_pos hg] at hs ⊢
                have ht2 : t2 = addSeconds gap t := (Option.some.inj hs).symm
                subst ht2
                rcases Nat.eq_zero_or_pos gap with hgap | hgap
                · subst hgap
                  rw [addSeconds_zero t hv] at hne
                  exact absurd rfl hne
                · exact ⟨addSeconds_lt t _ hv (by omega), rfl,
                    addSeconds_valid t _ hv hg, rfl⟩
              · rw [if_neg hg] at hs
                exact absurd hs (by simp)
            · have hse' : (gt == lc "second") = false := by simpa using hse
              simp only [hse', Bool.false_eq_true, if_false] at hs
              have ht2 : t2 = t := (Option.some.inj hs).symm
              exact absurd ht2 hne

theorem addDaysAux_dayok (fuel : Nat) : ∀ (n : Nat) (ymd : Nat × Nat × Nat),
    ymd.2.2 ≤ daysInMonth ymd.1 ymd.2.1 →
    (addDaysAux fuel n ymd).2.2 ≤
      daysInMonth (addDaysAux fuel n ymd).1 (addDaysAux fuel n ymd).2.1 := by
  induction fuel with
  | zero => intro n ymd h; exact h
  | succ fuel ih =>
    intro n ymd h
    obtain ⟨y, m, d⟩ := ymd
    have h' : d ≤ daysInMonth y m := h
    unfold addDaysAux
    by_cases hn : n = 0
    · simpa [hn] using h'
    · simp only [if_neg hn]
      by_cases hfits : d + n ≤ daysInMonth y m
      · simp only [if_pos hfits]
        exact hfits
      · simp only [if_neg hfits]
        apply ih
        by_cases hm : m == 12
        · simp only [hm, if_true]
          exact daysInMonth_pos (y + 1) 1
        · simp only [hm, Bool.false_eq_true, if_false]
          exact daysInMonth_pos y (m + 1)

theorem stepBucket_dayok {gt : List Char} {gap : Nat} {t t2 : PyDateTime}
    (hs : stepBucket gt gap t = some t2)
    (hd : t.day ≤ daysInMonth t.year t.month) :
    t2.day ≤ daysInMonth t2.year t2.month := by
  unfold stepBucket at hs
  by_cases hy : (gt == lc "year") = true
  · simp only [hy, if_true] at hs
    by_cases hg : t.year + gap ≤ 9999 ∧ t.day ≤ daysInMonth (t.year + gap) t.month
    · rw [if_pos hg] at hs
      have ht2 : t2 = { t with year := t.year + gap } := (Option.some.inj hs).symm
      rw [ht2]
      exact hg.2
    · rw [if_neg hg] at hs
      exact absurd hs (by simp)
  · have hy' : (gt == lc "year") = false := by simpa using hy
    simp only [hy', Bool.false_eq_true, if_false] at hs
    by_cases hmo : (gt == lc "month") = true
    · simp only [hmo, if_true] at hs
      by_cases h12 : (t.month == 12) = true
      · simp only [h12, if_true] at hs
        by_cases hg : t.year + gap ≤ 9999 ∧ t.day ≤ daysInMonth (t.year + gap) 1
        · rw [if_pos hg] at hs
          have ht2 : t2 = ⟨t.year + gap, 1, t.day, t.hour, t.minute, t.second, t.micro⟩ :=
            (Option.some.inj hs).symm
          rw [ht2]
          exact hg.2
        · rw [if_neg hg] at hs
          exact absurd hs (by simp)
      · have h12' : (t.month == 12) = false := by simpa using h12
        simp only [h12', Bool.false_eq_true, if_false] at hs
        by_cases hg : t.month + gap ≤ 12 ∧ t.day ≤ daysInMonth t.year (t.month + gap)
        · rw [if_pos hg] at hs
          have ht2 : t2 = { t with month := t.month + gap } := (Option.some.inj hs).symm
          rw [ht2]
          exact hg.2
        · rw [if_neg hg] at hs
          exact absurd hs (by simp)
    · have hmo' : (gt == lc "month") = false := by simpa using hmo
      simp only [hmo', Bool.false_eq_true, if_false] at hs
      by_cases hda : (gt == lc "day") = true
      · simp only [hda, if_true] at hs
        by_cases hg : (addDays gap t.year t.month t.day).1 ≤ 9999
        · rw [if_pos hg] at hs
          have ht2 : t2 = ⟨(addDays gap t.year t.month t.day).1,
              (addDays gap t.year t.month t.day).2.1,
              (addDays gap t.year t.month t.day).2.2,
              t.hour, t.minute, t.second, t.micro⟩ := (Option.some.inj hs).symm
          rw [ht2]
          exact addDaysAux_dayok (gap + 1) gap (t.year, t.month, t.day) hd
        · rw [if_neg hg] at hs
          exact absurd hs (by simp)
      · have hda' : (gt == lc "day") = false := by simpa using hda
        simp only [hda', Bool.false_eq_true, if_false] at hs
        by_cases hho : (gt == lc "hour") = true
        · simp only [hho, if_true] at hs
          by_cases hg : (addSeconds (gap * 3600) t).year ≤ 9999
          · rw [if_pos hg] at hs
            have ht2 : t2 = addSeconds (gap * 3600) t := (Option.some.inj hs).symm
            rw [ht2]
            exact addDaysAux_dayok
              ((t.hour * 3600 + t.minute * 60 + t.second + gap * 3600) / 86400 + 1)
              ((t.hour * 3600 + t.minute * 60 + t.second + gap * 3600) / 86400)
              (t.year, t.month, t.day) hd
          · rw [if_neg hg] at hs
            exact absurd hs (by simp)
        · have hho' : (gt == lc "hour") = false := by simpa using hho
          simp only [hho', Bool.false_eq_true, if_false] at hs
          by_cases hmi : (gt == lc "minute") = true
          · simp only [hmi, if_true] at hs
            by_cases hg : (addSeconds (gap * 60) t).year ≤ 9999
            · rw [if_pos hg] at hs
              have ht2 : t2 = addSeconds (gap * 60) t := (Option.some.inj hs).symm
              rw [ht2]
              exact addDaysAux_dayok
                ((t.hour * 3600 + t.minute * 60 + t.second + gap * 60) / 86400 + 1)
                ((t.hour * 3600 + t.minute * 60 + t.second + gap * 60) / 86400)
                (t.year, t.month, t.day) hd
            · rw [if_neg hg] at hs
              exact absurd hs (by simp)
          · have hmi' : (gt == lc "minute") = false := by simpa using hmi
            simp only [hmi', Bool.false_eq_true, if_false] at hs
            by_cases hse : (gt == lc "second") = true
            · simp only [hse, if_true] at hs
              by_cases hg : (addSeconds gap t).year ≤ 9999
              · rw [if_pos hg] at hs
                have ht2 : t2 = addSeconds gap t := (Option.some.inj hs).symm
                rw [ht2]
                exact addDaysAux_dayok
                  ((t.hour * 3600 + t.minute * 60 + t.second + gap) / 86400 + 1)
                  ((t.hour * 3600 + t.minute * 60 + t.second + gap) / 86400)
                  (t.year, t.month, t.day) hd
              · rw [if_neg hg] at hs
                exact absurd hs (by simp)
            · have hse' : (gt == lc "second") = false := by simpa using hse
              simp only [hse', Bool.false_eq_true, if_false] at hs
              have ht2 : t2 = t := (Option.some.inj hs).symm
              rw [ht2]
              exact hd

theorem genBuckets_spec {gt : List Char} {gap : Nat} {endd : PyDateTime}
    (hm : gt = lc "month" → gap = 1) :
    ∀ (fuel : Nat) (cur : PyDateTime) (bl : List (List Char × Nat)),
      validDT cur → cur.day ≤ daysInMonth cur.year cur.month →
      genBucketsAux fuel gt gap cur endd = some bl →
      ∃ sl : List PyDateTime, specGenAux fuel gt gap cur endd = some sl ∧
        bl = sl.map (fun t => (isoFormat t, 0)) ∧
        (∀ t ∈ sl, validDT t ∧ t.micro = cur.micro ∧
          t.day ≤ daysInMonth t.year t.month) ∧
        List.Chain' dtLt sl ∧
        (sl = [] ∨ sl.head? = some cur) := by
  intro fuel
  induction fuel with
  | zero =>
    intro cur bl hv hdk h
    exact absurd h (by simp [genBucketsAux])
  | succ fuel ih =>
    intro cur bl hv hdk h
    unfold genBucketsAux at h
    unfold specGenAux
    by_cases hlt : dtLt cur endd
    · rw [if_pos hlt] at h ⊢
      cases hstep : stepBucket gt gap cur with
      | none =>
        rw [hstep] at h
        exact absurd h (by simp)
      | some next =>
        rw [hstep] at h
        have h2 : (match genBucketsAux fuel gt gap next endd with
            | some rest => some ((isoFormat cur, 0) :: rest)
            | none => none) = some bl := h
        by_cases hne : next = cur
        · subst hne
          rw [genBuckets_fix hstep fuel hlt] at h2
          exact absurd h2 (by simp)
        · obtain ⟨hdlt, hspec, hval, hmic⟩ := stepBucket_ok hv hm hstep hne
          rw [hspec]
          cases hrest : genBucketsAux fuel gt gap next endd with
          | none =>
            rw [hrest] at h2
            exact absurd h2 (by simp)
          | some rest =>
            rw [hrest] at h2
            have h3 : bl = (isoFormat cur, 0) :: rest := (Option.some.inj h2).symm
            obtain ⟨sl2, hsg, hmap, hvm, hchain, hhead⟩ :=
              ih next rest hval (stepBucket_dayok hstep hdk) hrest
            refine ⟨cur :: sl2, ?_, ?_, ?_, ?_, Or.inr rfl⟩
            · show (match specGenAux fuel gt gap next endd with
                | some rest => some (cur :: rest)
                | none => none) = some (cur :: sl2)
              rw [hsg]
            · rw [h3, hmap]
              rfl
            · intro t ht
              rcases List.mem_cons.mp ht with h0 | h0
              · subst h0
                exact ⟨hv, rfl, hdk⟩
              · obtain ⟨hv2, hm2, hdk2⟩ := hvm t h0
                exact ⟨hv2, by rw [hm2, hmic], hdk2⟩
            · rw [List.chain'_cons']
              refine ⟨?_, hchain⟩
              intro y hy
              rcases hhead with h0 | h0
              · rw [h0] at hy
                simp at hy
              · rw [h0] at hy
                simp at hy
                exact hy ▸ hdlt
    · rw [if_neg hlt] at h ⊢
      have h3 : bl = [] := (Option.some.inj h).symm
      refine ⟨[], rfl, by rw [h3]; rfl, ?_, List.chain'_nil, Or.inl rfl⟩
      intro t ht
      simp at ht

theorem decimalFix_head (w : Nat) : ∀ n,
    decimalFix (w + 1) n = digitChar (n / 10 ^ w % 10) :: decimalFix w n := by
  induction w with
  | zero =>
    intro n
    simp [decimalFix]
  | succ w ih =>
    intro n
    have h1 : decimalFix (w + 1 + 1) n =
        decimalFix (w + 1) (n / 10) ++ [digitChar (n % 10)] := rfl
    rw [h1, ih (n / 10), Nat.div_div_eq_div_mul]
    have h2 : (10 : Nat) * 10 ^ w = 10 ^ (w + 1) := by
      rw [pow_succ]
      ring
    rw [h2]
    rfl

theorem digitVal_digitChar {d : Nat} (h : d < 10) : digitVal (digitChar d) = some d := by
  unfold digitVal
  rw [digitChar_toNat h, if_pos (by omega)]
  congr 1
  omega

theorem readFixedNat_decimalFix : ∀ (w n acc : Nat) (rest : List Char),
    readFixedNat w (decimalFix w n ++ rest) acc =
      some (acc * 10 ^ w + n % 10 ^ w, rest) := by
  intro w
  induction w with
  | zero =>
    intro n acc rest
    simp [decimalFix, readFixedNat, Nat.mod_one]
  | succ w ih =>
    intro n acc rest
    rw [decimalFix_head]
    have hd : digitVal (digitChar (n / 10 ^ w % 10)) = some (n / 10 ^ w % 10) :=
      digitVal_digitChar (Nat.mod_lt _ (by norm_num))
    show (match digitVal (digitChar (n / 10 ^ w % 10)) with
      | some d => readFixedNat w (decimalFix w n ++ rest) (acc * 10 + d)
      | none => none) = some (acc * 10 ^ (w + 1) + n % 10 ^ (w + 1), rest)
    rw [hd]
    show readFixedNat w (decimalFix w n ++ rest) (acc * 10 + n / 10 ^ w % 10) =
      some (acc * 10 ^ (w + 1) + n % 10 ^ (w + 1), rest)
    rw [ih]
    have harith : (acc * 10 + n / 10 ^ w % 10) * 10 ^ w + n % 10 ^ w =
        acc * 10 ^ (w + 1) + n % 10 ^ (w + 1) := by
      rw [pow_succ, Nat.mod_mul]
      ring
    rw [harith]

theorem readFixedNat_decimalFix_nil (w n acc : Nat) :
    readFixedNat w (decimalFix w n) acc = some (acc * 10 ^ w + n % 10 ^ w, []) := by
  have h := readFixedNat_decimalFix w n acc []
  rwa [List.append_nil] at h

theorem expectChar_cons_self (c : Char) (cs : List Char) :
    expectChar c (c :: cs) = some cs := by
  simp [expectChar]

theorem strptime_isoFormat {t : PyDateTime} (hv : validDT t) (hm : t.micro = 0)
    (hd : t.day ≤ daysInMonth t.year t.month) :
    strptime19 (isoFormat t) = some t := by
  obtain ⟨y, mo, d, h, mi, s, us⟩ := t
  have hv' : 1 ≤ y ∧ y ≤ 9999 ∧ 1 ≤ mo ∧ mo ≤ 12 ∧ 1 ≤ d ∧ d ≤ 31 ∧ h ≤ 23 ∧
      mi ≤ 59 ∧ s ≤ 59 ∧ us ≤ 999999 := hv
  obtain ⟨h1, h2, h3, h4, h5, h6, h7, h8, h9, h10⟩ := hv'
  have hus : us = 0 := hm
  subst hus
  have hd' : d ≤ daysInMonth y mo := hd
  have ey : y % 10 ^ 4 = y := Nat.mod_eq_of_lt (by omega)
  have emo : mo % 10 ^ 2 = mo := Nat.mod_eq_of_lt (by omega)
  have ed : d % 10 ^ 2 = d := Nat.mod_eq_of_lt (by omega)
  have eh : h % 10 ^ 2 = h := Nat.mod_eq_of_lt (by omega)
  have emi : mi % 10 ^ 2 = mi := Nat.mod_eq_of_lt (by omega)
  have es : s % 10 ^ 2 = s := Nat.mod_eq_of_lt (by omega)
  have hiso : isoFormat ⟨y, mo, d, h, mi, s, 0⟩ =
      decimalFix 4 y ++ '-' :: (decimalFix 2 mo ++ '-' :: (decimalFix 2 d ++
        'T' :: (decimalFix 2 h ++ ':' :: (decimalFix 2 mi ++
          ':' :: decimalFix 2 s)))) := by
    show fmt0 4 y ++ '-' :: fmt0 2 mo ++ '-' :: fmt0 2 d ++
        'T' :: fmt0 2 h ++ ':' :: fmt0 2 mi ++ ':' :: fmt0 2 s ++
        (if (0 : Nat) ≠ 0 then '.' :: fmt0 6 0 else []) = _
    rw [if_neg (by simp), List.append_nil,
      fmt0_eq_decimalFix 3 y (by omega), fmt0_eq_decimalFix 1 mo (by omega),
      fmt0_eq_decimalFix 1 d (by omega), fmt0_eq_decimalFix 1 h (by omega),
      fmt0_eq_decimalFix 1 mi (by omega), fmt0_eq_decimalFix 1 s (by omega)]
    simp [List.append_assoc]
  rw [hiso]
  simp only [strptime19, readFixedNat_decimalFix, readFixedNat_decimalFix_nil,
    expectChar_cons_self, Nat.zero_mul, Nat.zero_add, ey, emo, ed, eh, emi, es]
  rw [if_pos ⟨trivial, ⟨h1, h2, h3, h4, h5, h6, h7, h8, h9, by omega⟩, hd'⟩]

theorem lexLt_cons_skip (c : Char) {u v : List Char} (h : lexLt u v = true) :
    lexLt (c :: u) (c :: v) = true := by
  simp [lexLt, h]

theorem isoFormat_lt {a b : PyDateTime} (hva : validDT a) (hvb : validDT b)
    (hmic : a.micro = b.micro) (hlt : dtLt a b) :
    lexLt (isoFormat a) (isoFormat b) = true := by
  obtain ⟨ya, moa, da, ha, mia, sa, ua⟩ := a
  obtain ⟨yb, mob, db, hb, mib, sb, ub⟩ := b
  have hva' : 1 ≤ ya ∧ ya ≤ 9999 ∧ 1 ≤ moa ∧ moa ≤ 12 ∧ 1 ≤ da ∧ da ≤ 31 ∧
      ha ≤ 23 ∧ mia ≤ 59 ∧ sa ≤ 59 ∧ ua ≤ 999999 := hva
  have hvb' : 1 ≤ yb ∧ yb ≤ 9999 ∧ 1 ≤ mob ∧ mob ≤ 12 ∧ 1 ≤ db ∧ db ≤ 31 ∧
      hb ≤ 23 ∧ mib ≤ 59 ∧ sb ≤ 59 ∧ ub ≤ 999999 := hvb
  obtain ⟨a1, a2, a3, a4, a5, a6, a7, a8, a9, a10⟩ := hva'
  obtain ⟨b1, b2, b3, b4, b5, b6, b7, b8, b9, b10⟩ := hvb'
  have hmic' : ua = ub := hmic
  subst hmic'
  have hlt' : ya < yb ∨ (ya = yb ∧ (moa < mob ∨ (moa = mob ∧
      (da < db ∨ (da = db ∧ (ha < hb ∨ (ha = hb ∧
        (mia < mib ∨ (mia = mib ∧ (sa < sb ∨ (sa = sb ∧
          ua < ua))))))))))) := hlt
  have hiso : ∀ y mo d h mi s : Nat, y ≤ 9999 → mo ≤ 12 → d ≤ 31 → h ≤ 23 →
      mi ≤ 59 → s ≤ 59 →
      isoFormat ⟨y, mo, d, h, mi, s, ua⟩ =
        decimalFix 4 y ++ '-' :: (decimalFix 2 mo ++ '-' :: (decimalFix 2 d ++
          'T' :: (decimalFix 2 h ++ ':' :: (decimalFix 2 mi ++
            ':' :: (decimalFix 2 s ++
              (if ua ≠ 0 then '.' :: fmt0 6 ua else [])))))) := by
    intro y mo d h mi s k1 k2 k3 k4 k5 k6
    show fmt0 4 y ++ '-' :: fmt0 2 mo ++ '-' :: fmt0 2 d ++
        'T' :: fmt0 2 h ++ ':' :: fmt0 2 mi ++ ':' :: fmt0 2 s ++
        (if ua ≠ 0 then '.' :: fmt0 6 ua else []) = _
    rw [fmt0_eq_decimalFix 3 y (by omega), fmt0_eq_decimalFix 1 mo (by omega),
      fmt0_eq_decimalFix 1 d (by omega), fmt0_eq_decimalFix 1 h (by omega),
      fmt0_eq_decimalFix 1 mi (by omega), fmt0_eq_decimalFix 1 s (by omega)]
    simp [List.append_assoc]
  rw [hiso ya moa da ha mia sa a2 a4 a6 a7 a8 a9,
    hiso yb mob db hb mib sb b2 b4 b6 b7 b8 b9]
  have hlen : ∀ w m n : Nat, (decimalFix w m).length = (decimalFix w n).length := by
    intro w m n
    rw [decimalFix_length, decimalFix_length]
  rcases hlt' with hy | ⟨hy, hrest⟩
  · exact lexLt_append_right (hlen 4 ya yb) (decimalFix_lt 4 ya yb hy (by omega)) _ _
  · subst hy
    apply lexLt_append_left
    apply lexLt_cons_skip
    rcases hrest with hmo | ⟨hmo, hrest⟩
    · exact lexLt_append_right (hlen 2 moa mob) (decimalFix_lt 2 moa mob hmo (by omega)) _ _
    · subst hmo
      apply lexLt_append_left
      apply lexLt_cons_skip
      rcases hrest with hda | ⟨hda, hrest⟩
      · exact lexLt_append_right (hlen 2 da db) (decimalFix_lt 2 da db hda (by omega)) _ _
      · subst hda
        apply lexLt_append_left
        apply lexLt_cons_skip
        rcases hrest with hho | ⟨hho, hrest⟩
        · exact lexLt_append_right (hlen 2 ha hb) (decimalFix_lt 2 ha hb hho (by omega)) _ _
        · subst hho
          apply lexLt_append_left
          apply lexLt_cons_skip
          rcases hrest with hmi | ⟨hmi, hrest⟩
          · exact lexLt_append_right (hlen 2 mia mib)
              (decimalFix_lt 2 mia mib hmi (by omega)) _ _
          · subst hmi
            apply lexLt_append_left
            apply lexLt_cons_skip
            rcases hrest with hs | ⟨hs, hms⟩
            · exact lexLt_append_right (hlen 2 sa sb)
                (decimalFix_lt 2 sa sb hs (by omega)) _ _
            · omega

theorem dtLt_trans {a b c : PyDateTime} (h1 : dtLt a b) (h2 : dtLt b c) :
    dtLt a c := by
  unfold dtLt at h1 h2 ⊢
  omega

theorem chain_pairwise_dtLt : ∀ {l : List PyDateTime},
    List.Chain' dtLt l → List.Pairwise dtLt l := by
  intro l
  induction l with
  | nil => intro _; exact List.Pairwise.nil
  | cons x xs ih =>
    intro h
    rw [List.chain'_cons'] at h
    obtain ⟨hhead, htail⟩ := h
    refine List.Pairwise.cons ?_ (ih htail)
    intro y hy
    cases xs with
    | nil => simp at hy
    | cons z zs =>
      have hxz : dtLt x z := hhead z rfl
      rcases List.mem_cons.mp hy with h0 | h0
      · rw [h0]
        exact hxz
      · have hp := ih htail
        have hz : dtLt z y := (List.pairwise_cons.mp hp).1 y h0
        exact dtLt_trans hxz hz

theorem insertDesc_top (x : List Char × Nat) (l : List (List Char × Nat))
    (h : ∀ y ∈ l, lexLt y.1 x.1 = true) : insertDesc x l = x :: l := by
  cases l with
  | nil => rfl
  | cons y ys =>
    unfold insertDesc
    rw [if_pos (h y (List.mem_cons_self y ys))]

theorem foldl_insertDesc : ∀ (l acc : List (List Char × Nat)),
    List.Pairwise (fun p q => lexLt p.1 q.1 = true) l →
    (∀ y ∈ acc, ∀ x ∈ l, lexLt y.1 x.1 = true) →
    l.foldl (fun acc x => insertDesc x acc) acc = l.reverse ++ acc := by
  intro l
  induction l with
  | nil =>
    intro acc _ _
    simp
  | cons x xs ih =>
    intro acc hp hdom
    rw [List.foldl_cons]
    have hins : insertDesc x acc = x :: acc :=
      insertDesc_top x acc (fun y hy => hdom y hy x (List.mem_cons_self x xs))
    rw [hins, ih (x :: acc) (List.pairwise_cons.mp hp).2 ?_]
    · rw [List.reverse_cons, List.append_assoc]
      rfl
    · intro y hy x2 hx2
      rcases List.mem_cons.mp hy with h0 | h0
      · rw [h0]
        exact (List.pairwise_cons.mp hp).1 x2 hx2
      · exact hdom y h0 x2 (List.mem_cons_of_mem x hx2)

theorem pySortDesc_eq_reverse (l : List (List Char × Nat))
    (hp : List.Pairwise (fun p q => lexLt p.1 q.1 = true) l) :
    pySortDescByKey l = l.reverse := by
  unfold pySortDescByKey
  rw [foldl_insertDesc l [] hp (by intro y hy; simp at hy)]
  simp

theorem specBump_fst (rd : PyDateTime) : ∀ pl : List (PyDateTime × Nat),
    (specBump rd pl).map Prod.fst = pl.map Prod.fst := by
  intro pl
  induction pl with
  | nil => rfl
  | cons p ps ih =>
    obtain ⟨bt, c⟩ := p
    unfold specBump
    by_cases hb : dtLt bt rd
    · rw [if_pos hb]
      rfl
    · rw [if_neg hb]
      show (bt, c).1 :: (specBump rd ps).map Prod.fst = (bt, c).1 :: ps.map Prod.fst
      rw [ih]

theorem bumpFirst_spec (rd : PyDateTime) : ∀ pl : List (PyDateTime × Nat),
    (∀ t ∈ pl.map Prod.fst, strptime19 (isoFormat t) = some t) →
    bumpFirst rd (pl.map (fun p => (isoFormat p.1, p.2))) =
      some ((specBump rd pl).map (fun p => (isoFormat p.1, p.2))) := by
  intro pl
  induction pl with
  | nil => intro _; rfl
  | cons p ps ih =>
    intro hg
    obtain ⟨bt, c⟩ := p
    have hgb : strptime19 (isoFormat bt) = some bt := hg bt (by simp)
    have hgt : ∀ t ∈ ps.map Prod.fst, strptime19 (isoFormat t) = some t := by
      intro t ht
      exact hg t (List.mem_cons_of_mem _ ht)
    rw [List.map_cons]
    show (match strptime19 (isoFormat bt) with
      | none => none
      | some bt2 =>
        if dtLt bt2 rd then
          some ((isoFormat bt, c + 1) ::
            ps.map (fun p : PyDateTime × Nat => (isoFormat p.1, p.2)))
        else
          match bumpFirst rd
              (ps.map (fun p : PyDateTime × Nat => (isoFormat p.1, p.2))) with
          | some rest2 => some ((isoFormat bt, c) :: rest2)
          | none => none) = _
    rw [hgb]
    show (if dtLt bt rd then
        some ((isoFormat bt, c + 1) ::
          ps.map (fun p : PyDateTime × Nat => (isoFormat p.1, p.2)))
      else
        match bumpFirst rd
            (ps.map (fun p : PyDateTime × Nat => (isoFormat p.1, p.2))) with
        | some rest2 => some ((isoFormat bt, c) :: rest2)
        | none => none) = _
    by_cases hb : dtLt bt rd
    · rw [if_pos hb]
      unfold specBump
      rw [if_pos hb]
      rfl
    · rw [if_neg hb, ih hgt]
      have hsb : specBump rd ((bt, c) :: ps) = (bt, c) :: specBump rd ps := by
        simp [specBump, hb]
      rw [hsb]
      rfl

theorem countResults_spec : ∀ (results : List (Option FacetDateVal))
    (pl : List (PyDateTime × Nat)),
    (∀ t ∈ pl.map Prod.fst, strptime19 (isoFormat t) = some t) →
    countResults results (pl.map (fun p => (isoFormat p.1, p.2))) =
      some ((specCount results pl).map (fun p => (isoFormat p.1, p.2))) := by
  intro results
  induction results with
  | nil =>
    intro pl _
    rfl
  | cons r rs ih =>
    intro pl hg
    cases r with
    | none => exact ih pl hg
    | some rv =>
      show (match bumpFirst (coerceToDT rv)
          (pl.map (fun p : PyDateTime × Nat => (isoFormat p.1, p.2))) with
        | some fl2 => countResults rs fl2
        | none => none) = _
      rw [bumpFirst_spec (coerceToDT rv) pl hg]
      show countResults rs ((specBump (coerceToDT rv) pl).map
        (fun p : PyDateTime × Nat => (isoFormat p.1, p.2))) = _
      have hg2 : ∀ t ∈ (specBump (coerceToDT rv) pl).map Prod.fst,
          strptime19 (isoFormat t) = some t := by
        rw [specBump_fst]
        exact hg
      exact ih (specBump (coerceToDT rv) pl) hg2

/-- Claim C4 (amended): for a date facet request with a valid
`start_date` (whole-second resolution, day consistent with its month)
and `gap_amount = 1` whenever `gap_by` is `month` (the December
`replace` rule makes larger month gaps diverge, see
`C4_counterexample`), whenever `_do_date_facets` completes normally its
output is exactly the spec's pipeline: the ascending bucket sequence
from `start_date` stepping by `gap_amount` units of `gap_by`, strictly
below `end_date`, reversed to descending order, with each dated result
(dates coerced to midnight) incrementing the first descending bucket
whose start is strictly less than that date. -/
theorem C4_date_facets_amended {fuel : Nat} {gt : List Char} {gap : Nat}
    {start endd : PyDateTime} {results : List (Option FacetDateVal)}
    {out : List (List Char × Nat)}
    (hv : validDT start) (hdk : start.day ≤ daysInMonth start.year start.month)
    (hm0 : start.micro = 0) (hm : gt = lc "month" → gap = 1)
    (hc : doDateFacetsSingle fuel gt gap start endd results = some out) :
    specDateFacets fuel gt gap start endd results = some out := by
  unfold doDateFacetsSingle at hc
  unfold specDateFacets
  cases hgen : genBucketsAux fuel gt gap start endd with
  | none =>
    rw [hgen] at hc
    exact absurd hc (by simp)
  | some fl =>
    rw [hgen] at hc
    obtain ⟨sl, hsg, hmap, hprops, hchain, hhead⟩ :=
      genBuckets_spec hm fuel start fl hv hdk hgen
    rw [hsg]
    have hpw : List.Pairwise dtLt sl := chain_pairwise_dtLt hchain
    have hkeys : List.Pairwise (fun p q : List Char × Nat => lexLt p.1 q.1 = true) fl := by
      rw [hmap, List.pairwise_map]
      refine List.Pairwise.imp_of_mem ?_ hpw
      intro a b ha hb hab
      obtain ⟨hva2, hma2, _⟩ := hprops a ha
      obtain ⟨hvb2, hmb2, _⟩ := hprops b hb
      exact isoFormat_lt hva2 hvb2 (by rw [hma2, hmb2]) hab
    have hsort : pySortDescByKey fl = fl.reverse := pySortDesc_eq_reverse fl hkeys
    have hflrev : fl.reverse = (sl.reverse.map (fun t => (t, (0 : Nat)))).map
        (fun p : PyDateTime × Nat => (isoFormat p.1, p.2)) := by
      rw [hmap, List.map_map]
      simp [Function.comp_def, List.map_reverse]
    have hginv : ∀ t ∈ (sl.reverse.map (fun t => (t, (0 : Nat)))).map Prod.fst,
        strptime19 (isoFormat t) = some t := by
      intro t ht
      have hmem : t ∈ sl := by
        rw [List.map_map] at ht
        have : t ∈ sl.reverse := by simpa using ht
        exact List.mem_reverse.mp this
      obtain ⟨hv2, hm2, hd2⟩ := hprops t hmem
      exact strptime_isoFormat hv2 (by rw [hm2, hm0]) hd2
    have hc2 : countResults results (pySortDescByKey fl) = some out := hc
    rw [hsort, hflrev, countResults_spec results _ hginv] at hc2
    show some ((specCount results (sl.reverse.map (fun t => (t, (0 : Nat))))).map
      (fun p => (isoFormat p.1, p.2))) = some out
    exact hc2

/-- Witness for `C4_date_facets_amended`: a two-day facet over
`[2023-01-01, 2023-01-03)` with one result dated `2023-01-02 05:00:00`
bumps exactly the `2023-01-02` bucket. -/
theorem C4_date_facets_witness :
    validDT ⟨2023, 1, 1, 0, 0, 0, 0⟩ ∧
    doDateFacetsSingle 4 (lc "day") 1 ⟨2023, 1, 1, 0, 0, 0, 0⟩
      ⟨2023, 1, 3, 0, 0, 0, 0⟩ [some (.datetime ⟨2023, 1, 2, 5, 0, 0, 0⟩)] =
      some [(lc "2023-01-02T00:00:00", 1), (lc "2023-01-01T00:00:00", 0)] ∧
    specDateFacets 4 (lc "day") 1 ⟨2023, 1, 1, 0, 0, 0, 0⟩
      ⟨2023, 1, 3, 0, 0, 0, 0⟩ [some (.datetime ⟨2023, 1, 2, 5, 0, 0, 0⟩)] =
      some [(lc "2023-01-02T00:00:00", 1), (lc "2023-01-01T00:00:00", 0)] :=
  ⟨by decide, by decide,
    C4_date_facets_amended (by decide) (by decide) (by decide) (by decide)
      (by decide)⟩

/-- Claim C8: a search with an empty query string short-circuits to
`results = [], hits = 0` with no facets or spelling keys, emitting no
warning, never opening the index store and executing no engine
operation or sub-search: lines 316-320 return before line 326 runs. -/
theorem C8_empty_query_short_circuit {ρ φ δ : Type} (ctx : SearchCtx ρ φ δ)
    (facets : Option (List (List Char))) (date_facets : Option (List (List Char)))
    (query_facets : Option (List (List Char × List Char))) :
    searchModel ctx [] facets date_facets query_facets =
      ⟨[], 0, none, none, [], false, []⟩ := rfl

/-- Counterexample to claim C7: with a non-None, nonempty
`query_facets` the warning of line 322 is emitted, but the search does
not proceed without the facet — line 360 still computes the queries
facet, and the sub-query is executed as a search (line 639), so the
returned facet data does contain a query-facet count. -/
theorem C7_counterexample :
    (searchModel (⟨fun _ => [], fun _ => 7, fun _ => none, fun _ _ => 0,
        fun _ _ => 0⟩ : SearchCtx Nat Nat Nat)
      (lc "x") none none (some [(lc "name", lc "a")])).warnings =
        [queryFacetWarning] ∧
    queriesFacetOf (searchModel (⟨fun _ => [], fun _ => 7, fun _ => none,
        fun _ _ => 0, fun _ _ => 0⟩ : SearchCtx Nat Nat Nat)
      (lc "x") none none (some [(lc "name", lc "a")])) =
        some [(lc "name", lc "a", 7)] ∧
    (searchModel (⟨fun _ => [], fun _ => 7, fun _ => none, fun _ _ => 0,
        fun _ _ => 0⟩ : SearchCtx Nat Nat Nat)
      (lc "x") none none (some [(lc "name", lc "a")])).subSearches = [lc "a"] :=
  ⟨rfl, rfl, rfl⟩

/-- Claim C7 (amended): for every search whose `query_facets` argument
is non-None and whose query string is nonempty, the "not implemented"
warning is emitted, but the facet is not skipped: when `query_facets`
is nonempty the returned facet data contains one `(query, hits)` count
per entry, each sub-query executed as a search by `_do_query_facets`;
only an empty `query_facets` dict yields no counts and no sub-search. -/
theorem C7_query_facets_amended {ρ φ δ : Type} (ctx : SearchCtx ρ φ δ)
    (q : List Char) (hq : q ≠ [])
    (facets : Option (List (List Char))) (date_facets : Option (List (List Char)))
    (qf : List (List Char × List Char)) :
    (searchModel ctx q facets date_facets (some qf)).warnings =
      [queryFacetWarning] ∧
    queriesFacetOf (searchModel ctx q facets date_facets (some qf)) =
      (if qf = [] then none else some (doQueryFacets ctx.hitsEst qf)) ∧
    (searchModel ctx q facets date_facets (some qf)).subSearches =
      (if qf = [] then [] else qf.map (fun p => p.2)) := by
  unfold searchModel queriesFacetOf
  rw [if_neg hq]
  exact ⟨rfl, rfl, rfl⟩

/-- Witness for `C7_query_facets_amended` at a concrete search call. -/
theorem C7_query_facets_witness :
    lc "x" ≠ [] ∧
    ((searchModel (⟨fun _ => [], fun _ => 9, fun _ => none, fun _ _ => 0,
        fun _ _ => 0⟩ : SearchCtx Nat Nat Nat)
      (lc "x") none none (some [(lc "color", lc "red")])).warnings =
        [queryFacetWarning] ∧
    queriesFacetOf (searchModel (⟨fun _ => [], fun _ => 9, fun _ => none,
        fun _ _ => 0, fun _ _ => 0⟩ : SearchCtx Nat Nat Nat)
      (lc "x") none none (some [(lc "color", lc "red")])) =
        (if [(lc "color", lc "red")] = ([] : List (List Char × List Char)) then none
         else some (doQueryFacets (fun _ => 9) [(lc "color", lc "red")])) ∧
    (searchModel (⟨fun _ => [], fun _ => 9, fun _ => none, fun _ _ => 0,
        fun _ _ => 0⟩ : SearchCtx Nat Nat Nat)
      (lc "x") none none (some [(lc "color", lc "red")])).subSearches =
        (if [(lc "color", lc "red")] = ([] : List (List Char × List Char)) then []
         else [(lc "color", lc "red")].map (fun p => p.2))) :=
  ⟨by decide,
    C7_query_facets_amended (⟨fun _ => [], fun _ => 9, fun _ => none,
        fun _ _ => 0, fun _ _ => 0⟩ : SearchCtx Nat Nat Nat)
      (lc "x") (by decide) none none [(lc "color", lc "red")]⟩
